import Mathlib

/-!
CEL evaluation of ManagedCluster selectors.

A shallow embedding of `pkg/cel/managedcluster` (`evaluator.go`, `lib.go`).

The CEL compiler and interpreter (cel-go), the score lister and the
apimachinery `resource` and `version` packages are libraries the package calls
into.  They are taken as parameters (`CelEnv`, `ScoreLister`, `VersionLib`) or as
records of what their methods return (`Quantity`); the functions of the package
itself are translated line by line.
-/

namespace managedcluster

/-! ## Values -/

/-- A Go `error`: `none` is `nil`, `some m` an error whose `Error()` text is `m`. -/
abbrev GoError := Option String

/-- Dynamic values: what a Go `interface{}` holds in the converted cluster and
what a CEL `ref.Val` stands for.  `err` is a `*types.Err` with its message. -/
inductive Val where
  | null
  | bool (b : Bool)
  | int (i : Int)
  | str (s : String)
  | list (xs : List Val)
  | map (kvs : List (String × Val))
  | err (msg : String)

instance : Inhabited Val := ⟨Val.null⟩

/-- `traits.Mapper.Find` with a string key: the value and whether it was found.
Only a map value is a `Mapper`. -/
def Val.find (m : Val) (key : String) : Option Val :=
  match m with
  | Val.map kvs => kvs.lookup key
  | _ => none

/-- A Go `map[string]string` seen as a dynamic value; the nil map has no entry. -/
def stringMap (m : Option (List (String × String))) : Val :=
  Val.map ((m.getD []).map fun kv => (kv.1, Val.str kv.2))

/-- `strings.Contains s sub`. -/
def contains (s sub : String) : Prop := sub.data <:+: s.data

instance (s sub : String) : Decidable (contains s sub) := by
  unfold contains; infer_instance

/-! ## The cluster record (the fields `convertManagedCluster` reads) -/

structure ManagedClusterClaim where
  Name : String
  Value : String

structure ManagedClusterVersion where
  Kubernetes : String

structure ManagedClusterStatus where
  ClusterClaims : List ManagedClusterClaim
  Version : ManagedClusterVersion

structure ManagedCluster where
  Name : String
  Labels : Option (List (String × String))
  Annotations : Option (List (String × String))
  Status : ManagedClusterStatus

/-- Translation of `convertManagedCluster` (evaluator.go 58-83). -/
def convertManagedCluster (cluster : ManagedCluster) : Val :=
  let convertedClusterClaims : List Val :=
    cluster.Status.ClusterClaims.foldl
      (fun acc claim =>
        acc ++ [Val.map [("name", Val.str claim.Name), ("value", Val.str claim.Value)]])
      []
  let convertedVersion : Val :=
    Val.map [("kubernetes", Val.str cluster.Status.Version.Kubernetes)]
  Val.map
    [ ("metadata", Val.map
        [ ("name", Val.str cluster.Name),
          ("labels", stringMap cluster.Labels),
          ("annotations", stringMap cluster.Annotations) ]),
      ("status", Val.map
        [ ("clusterClaims", Val.list convertedClusterClaims),
          ("version", convertedVersion) ]) ]

/-! ## The evaluator -/

/-- The CEL environment as `Evaluate` uses it: `env.Compile` (with `iss.Err()`),
`env.Program`, and `prg.Eval` on the activation. -/
structure CelEnv (Ast Prg : Type) where
  Compile : String → Except String Ast
  Program : Ast → Except String Prg
  Eval : Prg → Val → Except String Val

/-- What a call of `Evaluate` does: it returns `(matched, err)`, or it panics
(a method call on the nil program left by a failed `env.Program`). -/
inductive Outcome where
  | ret (matched : Bool) (err : GoError)
  | panic
deriving DecidableEq, Repr

/-- A call into the CEL runtime, with the position of the expression in the list. -/
inductive Call where
  | compile (pos : Nat) (expr : String)
  | program (pos : Nat) (expr : String)
  | eval (pos : Nat) (expr : String)
deriving DecidableEq, Repr

/-- Position of the expression a call is made for. -/
def Call.pos : Call → Nat
  | Call.compile p _ => p
  | Call.program p _ => p
  | Call.eval p _ => p

/-- The activation `map[string]interface{}{"managedCluster": convertedCluster}`. -/
def activation (convertedCluster : Val) : Val :=
  Val.map [("managedCluster", convertedCluster)]

/-- The loop of `Evaluate` (evaluator.go 35-54) from position `i` on, with the
runtime calls made so far in `tr`. -/
def evalLoop {Ast Prg : Type} (env : CelEnv Ast Prg) (convertedCluster : Val) :
    Nat → List String → List Call → Outcome × List Call
  | _, [], tr => (Outcome.ret true none, tr)
  | i, expr :: rest, tr =>
    match env.Compile expr with
    | Except.error issErr =>
      (Outcome.ret false
        (some ("failed to compile CEL expression '" ++ expr ++ "': " ++ issErr)),
       tr ++ [Call.compile i expr])
    | Except.ok ast =>
      match env.Program ast with
      | Except.error _ =>
        (Outcome.panic, tr ++ [Call.compile i expr, Call.program i expr])
      | Except.ok prg =>
        match env.Eval prg (activation convertedCluster) with
        | Except.error err =>
          (Outcome.ret false (some ("CEL evaluation error: " ++ err)),
           tr ++ [Call.compile i expr, Call.program i expr, Call.eval i expr])
        | Except.ok result =>
          match result with
          | Val.bool true =>
            evalLoop env convertedCluster (i + 1) rest
              (tr ++ [Call.compile i expr, Call.program i expr, Call.eval i expr])
          | _ =>
            (Outcome.ret false none,
             tr ++ [Call.compile i expr, Call.program i expr, Call.eval i expr])

/-- Translation of `ManagedClusterEvaluator.Evaluate` (evaluator.go 31-55),
instrumented with the list of runtime calls it made. -/
def EvaluateTraced {Ast Prg : Type} (env : CelEnv Ast Prg) (cluster : ManagedCluster)
    (expressions : List String) : Outcome × List Call :=
  let convertedCluster := convertManagedCluster cluster
  evalLoop env convertedCluster 0 expressions []

/-- The value `Evaluate` returns. -/
def Evaluate {Ast Prg : Type} (env : CelEnv Ast Prg) (cluster : ManagedCluster)
    (expressions : List String) : Outcome :=
  (EvaluateTraced env cluster expressions).1

/-- The runtime calls `Evaluate` makes. -/
def EvaluateCalls {Ast Prg : Type} (env : CelEnv Ast Prg) (cluster : ManagedCluster)
    (expressions : List String) : List Call :=
  (EvaluateTraced env cluster expressions).2

/-! ## What one expression does on a document -/

/-- How a single expression fares against the runtime. -/
inductive Step where
  | compileError (cause : String)
  | noProgram
  | evalError (cause : String)
  | value (v : Val)

/-- Compile, plan and execute one expression on the converted cluster. -/
def runExpr {Ast Prg : Type} (env : CelEnv Ast Prg) (convertedCluster : Val)
    (expr : String) : Step :=
  match env.Compile expr with
  | Except.error c => Step.compileError c
  | Except.ok ast =>
    match env.Program ast with
    | Except.error _ => Step.noProgram
    | Except.ok prg =>
      match env.Eval prg (activation convertedCluster) with
      | Except.error c => Step.evalError c
      | Except.ok v => Step.value v

/-- The calls made for an expression that is compiled, planned and executed. -/
def callsAt (i : Nat) (expr : String) : List Call :=
  [Call.compile i expr, Call.program i expr, Call.eval i expr]

/-- The calls made for a run of expressions that are all executed, the first at
position `i`. -/
def callsFrom : Nat → List String → List Call
  | _, [] => []
  | i, e :: es => callsAt i e ++ callsFrom (i + 1) es

/-- The expression fails: its compilation or its execution reports an error. -/
def Fails {Ast Prg : Type} (env : CelEnv Ast Prg) (convertedCluster : Val)
    (expr : String) : Prop :=
  (∃ c, runExpr env convertedCluster expr = Step.compileError c) ∨
  (∃ c, runExpr env convertedCluster expr = Step.evalError c)

/-! ## The function library (lib.go) -/

/-- The `resource.Format` of a quantity. -/
inductive Format where
  | DecimalExponent
  | BinarySI
  | DecimalSI
deriving DecidableEq, Repr

/-- A `resource.Quantity`, as the record of what `scoreToCel` reads from it: the
field `Format` and the results of `MilliValue()`, `Value()` and `String()`. -/
structure Quantity where
  Format : Format
  MilliValue : Int
  Value : Int
  String : String

/-- Translation of `scoreToCel` (lib.go 187-200). -/
def scoreToCel (name : String) (value : Int) (q : Quantity) : Val :=
  let quantityValue : Val :=
    if q.Format = Format.DecimalSI ∧ Int.tmod q.MilliValue 1000 = 0 then
      Val.int q.Value
    else
      Val.str q.String
  Val.map [("name", Val.str name), ("value", Val.int value), ("quantity", quantityValue)]

structure AddOnPlacementScoreItem where
  Name : String
  Value : Int
  Quantity : Quantity

structure AddOnPlacementScoreStatus where
  Scores : List AddOnPlacementScoreItem

structure AddOnPlacementScore where
  Status : AddOnPlacementScoreStatus

/-- The score lister: `scoreLister.AddOnPlacementScores(namespace).Get(name)`. -/
abbrev ScoreLister := String → String → Except String AddOnPlacementScore

/-- The loop of `clusterScores` (lib.go 176-179): a slice of `len(scores)` nil
values, the `i`-th of which is overwritten with the `i`-th converted score. -/
def fillScores (scores : List AddOnPlacementScoreItem) : List Val :=
  let celScores : List Val := List.replicate scores.length Val.null
  scores.enum.foldl
    (fun acc p => acc.set p.1 (scoreToCel p.2.Name p.2.Value p.2.Quantity))
    celScores

/-- Translation of `ManagedClusterLib.clusterScores` (lib.go 165-182).  `none` is
a panic: a missing argument, a failed type assertion or a nil value. -/
def clusterScores (scoreLister : ScoreLister) (args : List Val) : Option Val :=
  match args with
  | cluster :: scoreName :: _ =>
    match cluster with
    | Val.map _ =>
      match cluster.find "metadata" with
      | some (Val.map md) =>
        match (Val.map md).find "name" with
        | some (Val.str clusterName) =>
          match scoreName with
          | Val.str name =>
            match scoreLister clusterName name with
            | Except.error err => some (Val.err ("failed to list scores: " ++ err))
            | Except.ok scores => some (Val.list (fillScores scores.Status.Scores))
          | _ => none
        | _ => none
      | _ => none
    | _ => none
  | _ => none

/-- The version package as `compareVersions` uses it: `version.ParseSemantic`
and `(*Version).Compare` against a version string. -/
structure VersionLib (V : Type) where
  ParseSemantic : String → Except String V
  Compare : V → String → Except String Int

/-- The type assertion `x.Value().(string)`. -/
def Val.asString : Val → Option String
  | Val.str s => some s
  | _ => none

/-- Translation of `compareVersions` (lib.go 219-247); `none` is a nil `ref.Val`. -/
def compareVersions {V : Type} (lib : VersionLib V) (v1Str v2Str : Option Val)
    (op : String) : Val :=
  match v1Str, v2Str with
  | some a, some b =>
    match a.asString, b.asString with
    | some v1, some v2 =>
      match lib.ParseSemantic v1 with
      | Except.error err => Val.err (op ++ ": invalid first version: " ++ err)
      | Except.ok v1Parsed =>
        match lib.Compare v1Parsed v2 with
        | Except.error err => Val.err (op ++ ": comparison failed: " ++ err)
        | Except.ok cmp =>
          if op = "versionIsGreaterThan" then Val.bool (decide (cmp > 0))
          else Val.bool (decide (cmp < 0))
    | _, _ => Val.err (op ++ ": both arguments must be strings")
  | _, _ => Val.err (op ++ ": requires exactly two arguments")

/-- Translation of `ManagedClusterLib.versionIsGreaterThan` (lib.go 202-204);
`none` is the panic of indexing past the arguments. -/
def versionIsGreaterThan {V : Type} (lib : VersionLib V) (args : List Val) : Option Val :=
  match args with
  | a :: b :: _ => some (compareVersions lib (some a) (some b) "versionIsGreaterThan")
  | _ => none

/-- Translation of `ManagedClusterLib.versionIsLessThan` (lib.go 206-208). -/
def versionIsLessThan {V : Type} (lib : VersionLib V) (args : List Val) : Option Val :=
  match args with
  | a :: b :: _ => some (compareVersions lib (some a) (some b) "versionIsLessThan")
  | _ => none

/-- The resource package as `compareQuantities` uses it: `resource.ParseQuantity`
and `Quantity.Cmp`. -/
structure QuantityLib (Q : Type) where
  ParseQuantity : String → Except String Q
  Cmp : Q → Q → Int

/-- Translation of `compareQuantities` (lib.go 250-278); `none` is a nil `ref.Val`. -/
def compareQuantities {Q : Type} (lib : QuantityLib Q) (q1Str q2Str : Option Val)
    (op : String) : Val :=
  match q1Str, q2Str with
  | some a, some b =>
    match a.asString, b.asString with
    | some q1, some q2 =>
      match lib.ParseQuantity q1 with
      | Except.error err => Val.err (op ++ ": invalid first quantity: " ++ err)
      | Except.ok q1Val =>
        match lib.ParseQuantity q2 with
        | Except.error err => Val.err (op ++ ": invalid second quantity: " ++ err)
        | Except.ok q2Val =>
          let cmp := lib.Cmp q1Val q2Val
          if op = "quantityIsGreaterThan" then Val.bool (decide (cmp > 0))
          else Val.bool (decide (cmp < 0))
    | _, _ => Val.err (op ++ ": both arguments must be strings")
  | _, _ => Val.err (op ++ ": requires exactly two arguments")

/-- Translation of `ManagedClusterLib.quantityIsGreaterThan` (lib.go 210-212);
`none` is the panic of indexing past the arguments. -/
def quantityIsGreaterThan {Q : Type} (lib : QuantityLib Q) (args : List Val) : Option Val :=
  match args with
  | a :: b :: _ => some (compareQuantities lib (some a) (some b) "quantityIsGreaterThan")
  | _ => none

/-- Translation of `ManagedClusterLib.quantityIsLessThan` (lib.go 214-216). -/
def quantityIsLessThan {Q : Type} (lib : QuantityLib Q) (args : List Val) : Option Val :=
  match args with
  | a :: b :: _ => some (compareQuantities lib (some a) (some b) "quantityIsLessThan")
  | _ => none

/-- The result is a boolean value. -/
def Val.isBool : Val → Bool
  | Val.bool _ => true
  | _ => false

/-- The type assertion `x.Value().(bool)`, with `false` for any other value. -/
def Val.asBool : Val → Bool
  | Val.bool b => b
  | _ => false

/-- The result is an error value. -/
def Val.isErr : Val → Bool
  | Val.err _ => true
  | _ => false

/-! ## Semantic versions -/

/-- Modelled from the spec: a parsed semantic version `MAJOR.MINOR.PATCH[-pre][+build]`,
the result of the apimachinery `version.ParseSemantic`, which is not part of the
package; the pre-release and the build metadata are kept as their dot-separated
identifiers. -/
structure SemVer where
  major : Nat
  minor : Nat
  patch : Nat
  preRelease : List (List Char)
  buildMetadata : List (List Char)
deriving DecidableEq, Repr

/-- Modelled from the spec: the fields of a dot-separated text (`strings.Split`),
used by the parser of semantic versions. -/
def splitOnChar (sep : Char) : List Char → List (List Char)
  | [] => [[]]
  | c :: cs =>
    if c = sep then [] :: splitOnChar sep cs
    else
      match splitOnChar sep cs with
      | [] => [[c]]
      | h :: t => (c :: h) :: t

/-- Modelled from the spec: the value of a numeric identifier of a semantic
version, a non-empty run of digits without a leading zero (the text `0` apart). -/
def parseNumeric (cs : List Char) : Option Nat :=
  match cs with
  | [] => none
  | c :: rest =>
    if (c :: rest).all Char.isDigit && (c != '0' || rest.isEmpty) then
      some ((c :: rest).foldl (fun n d => 10 * n + (d.toNat - 48)) 0)
    else none

/-- Modelled from the spec: a pre-release or build identifier of a semantic
version is a non-empty run of ASCII letters, digits and hyphens. -/
def validIdent (cs : List Char) : Bool :=
  !cs.isEmpty && cs.all (fun c => c.isAlphanum || c == '-')

/-- Modelled from the spec: a pre-release identifier of a semantic version; one
made of digits only has no leading zero. -/
def validPreIdent (cs : List Char) : Bool :=
  validIdent cs && (!cs.all Char.isDigit || (parseNumeric cs).isSome)

/-- Modelled from the spec: the optional leading `v` of a version text is
dropped before it is parsed. -/
def stripV (s : List Char) : List Char :=
  match s with
  | 'v' :: r => r
  | _ => s

/-- Modelled from the spec: the parser of `MAJOR.MINOR.PATCH[-pre][+build]`. -/
def parseSemVerBody (body : List Char) : Option SemVer :=
  let core := body.takeWhile (fun c => c != '-' && c != '+')
  let extra := body.dropWhile (fun c => c != '-' && c != '+')
  let pre : List (List Char) := match extra with
    | '-' :: r => splitOnChar '.' (r.takeWhile (fun c => c != '+'))
    | _ => []
  let build : List (List Char) := match extra.dropWhile (fun c => c != '+') with
    | '+' :: b => splitOnChar '.' b
    | _ => []
  match (splitOnChar '.' core).map parseNumeric with
  | [some major, some minor, some patch] =>
    if pre.all validPreIdent && build.all validIdent then
      some (SemVer.mk major minor patch pre build)
    else none
  | _ => none

/-- Modelled from the spec: the parser of semantic versions (optional leading
`v`, then `MAJOR.MINOR.PATCH[-pre][+build]`) behind `version.ParseSemantic`. -/
def parseSemVer (s : List Char) : Option SemVer :=
  parseSemVerBody (stripV s)

/-- Modelled from the spec: lexical ASCII order of two identifiers. -/
def compareChars : List Char → List Char → Ordering
  | [], [] => Ordering.eq
  | [], _ :: _ => Ordering.lt
  | _ :: _, [] => Ordering.gt
  | a :: as, b :: bs =>
    if a.toNat < b.toNat then Ordering.lt
    else if b.toNat < a.toNat then Ordering.gt
    else compareChars as bs

/-- Modelled from the spec: semantic-version precedence of two pre-release
identifiers: numeric ones by value, a numeric one below an alphanumeric one,
alphanumeric ones in ASCII order. -/
def compareIdent (a b : List Char) : Ordering :=
  match parseNumeric a, parseNumeric b with
  | some x, some y => compare x y
  | some _, none => Ordering.lt
  | none, some _ => Ordering.gt
  | none, none => compareChars a b

/-- Modelled from the spec: semantic-version precedence of two non-empty
pre-releases, field by field; of two that agree on the common fields the longer
one is the greater. -/
def comparePre : List (List Char) → List (List Char) → Ordering
  | [], [] => Ordering.eq
  | [], _ :: _ => Ordering.lt
  | _ :: _, [] => Ordering.gt
  | a :: as, b :: bs =>
    match compareIdent a b with
    | Ordering.eq => comparePre as bs
    | o => o

/-- Modelled from the spec: semantic-version precedence: major, minor and patch
numerically, a pre-release version below the normal version, build metadata
ignored. -/
def SemVer.precedence (v o : SemVer) : Ordering :=
  match compare v.major o.major with
  | Ordering.eq =>
    match compare v.minor o.minor with
    | Ordering.eq =>
      match compare v.patch o.patch with
      | Ordering.eq =>
        match v.preRelease, o.preRelease with
        | [], [] => Ordering.eq
        | [], _ :: _ => Ordering.gt
        | _ :: _, [] => Ordering.lt
        | p, q => comparePre p q
      | c => c
    | c => c
  | c => c

/-- Modelled from the spec: the three-way result of `(*Version).Compare`: `1`
when the receiver is greater, `-1` when it is less, `0` when they are equal. -/
def threeWay : Ordering → Int
  | Ordering.lt => -1
  | Ordering.eq => 0
  | Ordering.gt => 1

/-- Modelled from the spec: the apimachinery version package restricted to
`ParseSemantic` and `Compare`, which are not part of the package: both parse their
text as a semantic version, `Compare` answers by semantic-version precedence. -/
def semverLib : VersionLib SemVer where
  ParseSemantic := fun str =>
    match parseSemVer str.data with
    | some v => Except.ok v
    | none => Except.error ("could not parse \"" ++ str ++ "\" as version")
  Compare := fun v other =>
    match parseSemVer other.data with
    | some o => Except.ok (threeWay (v.precedence o))
    | none => Except.error ("could not parse \"" ++ other ++ "\" as version")

/-! ## Resource quantities -/

/-- Modelled from the spec: the normalized magnitude of a parsed resource
quantity, the result of the apimachinery `resource.ParseQuantity`, which is not part
of the package: the quantity amounts to `num / 10 ^ den` base units. -/
structure Magnitude where
  num : Int
  den : Nat
deriving DecidableEq, Repr

/-- Modelled from the spec: the magnitude as a rational number of base units. -/
def Magnitude.toRat (m : Magnitude) : ℚ :=
  (m.num : ℚ) / (10 : ℚ) ^ m.den

/-- Modelled from the spec: the scale of a unit suffix of the resource-quantity
grammar, as a multiplier and a number of decimal places: binary suffixes are
powers of 1024, decimal suffixes powers of 1000. -/
def suffixScale (suffix : List Char) : Option (Nat × Nat) :=
  match suffix with
  | [] => some (1, 0)
  | ['K', 'i'] => some (1024 ^ 1, 0)
  | ['M', 'i'] => some (1024 ^ 2, 0)
  | ['G', 'i'] => some (1024 ^ 3, 0)
  | ['T', 'i'] => some (1024 ^ 4, 0)
  | ['P', 'i'] => some (1024 ^ 5, 0)
  | ['E', 'i'] => some (1024 ^ 6, 0)
  | ['n'] => some (1, 9)
  | ['u'] => some (1, 6)
  | ['m'] => some (1, 3)
  | ['k'] => some (1000 ^ 1, 0)
  | ['M'] => some (1000 ^ 2, 0)
  | ['G'] => some (1000 ^ 3, 0)
  | ['T'] => some (1000 ^ 4, 0)
  | ['P'] => some (1000 ^ 5, 0)
  | ['E'] => some (1000 ^ 6, 0)
  | _ => none

/-- Modelled from the spec: the value of a run of decimal digits. -/
def digitsValue (cs : List Char) : Nat :=
  cs.foldl (fun n d => 10 * n + (d.toNat - 48)) 0

/-- Modelled from the spec: the unsigned part of a resource quantity: digits with
an optional decimal point, then a unit suffix. -/
def parseUnsignedQuantity (body : List Char) : Option Magnitude :=
  let whole := body.takeWhile Char.isDigit
  let afterWhole := body.dropWhile Char.isDigit
  let frac : List Char := match afterWhole with
    | '.' :: r => r.takeWhile Char.isDigit
    | _ => []
  let suffix : List Char := match afterWhole with
    | '.' :: r => r.dropWhile Char.isDigit
    | _ => afterWhole
  if whole.isEmpty && frac.isEmpty then none
  else
    match suffixScale suffix with
    | none => none
    | some (mult, places) =>
      some (Magnitude.mk ((digitsValue (whole ++ frac) * mult : Nat) : Int)
        (frac.length + places))

/-- Modelled from the spec: the parser of the resource-quantity grammar (an
optional sign, a decimal number, a decimal or binary SI suffix such as `3`,
`300Mi`, `1.5Gi`) behind `resource.ParseQuantity`. -/
def parseQuantityChars (s : List Char) : Option Magnitude :=
  match s with
  | '-' :: r => (parseUnsignedQuantity r).map fun m => Magnitude.mk (-m.num) m.den
  | '+' :: r => parseUnsignedQuantity r
  | _ => parseUnsignedQuantity s

/-- Modelled from the spec: the three-way comparison of `Quantity.Cmp`: both
magnitudes are brought to a common denominator and compared. -/
def Magnitude.cmp (a b : Magnitude) : Int :=
  threeWay (compare (a.num * (10 : Int) ^ b.den) (b.num * (10 : Int) ^ a.den))

/-- Modelled from the spec: the apimachinery resource package restricted to
`ParseQuantity` and `Cmp`, which are not part of the package. -/
def quantityLib : QuantityLib Magnitude where
  ParseQuantity := fun str =>
    match parseQuantityChars str.data with
    | some q => Except.ok q
    | none => Except.error "quantities must match the regular expression"
  Cmp := Magnitude.cmp

/-! ## Worked examples: a small runtime, listers, quantities and clusters -/

/-- The few expression forms the example runtime compiles. -/
inductive DemoAst where
  | const (v : Val)
  | labelIs (key value : String)
  | scores (name : String)

/-- The example runtime compiles a fixed table of CEL expressions and reports a
syntax error for any other text. -/
def demoCompile (expr : String) : Except String DemoAst :=
  if expr = "true" then Except.ok (DemoAst.const (Val.bool true))
  else if expr = "false" then Except.ok (DemoAst.const (Val.bool false))
  else if expr = "[1, 2]" then Except.ok (DemoAst.const (Val.list [Val.int 1, Val.int 2]))
  else if expr = "managedCluster.metadata.labels[\"cloud\"] == \"Amazon\"" then
    Except.ok (DemoAst.labelIs "cloud" "Amazon")
  else if expr = "managedCluster.scores(\"invalid-score\")" then
    Except.ok (DemoAst.scores "invalid-score")
  else Except.error "Syntax error: mismatched input"

/-- How `prg.Eval` hands over the value of the interpreted expression: an error
value becomes the Go error, a panic in a function binding is recovered into one. -/
def evalResult : Option Val → Except String Val
  | none => Except.error "internal error"
  | some (Val.err msg) => Except.error msg
  | some v => Except.ok v

/-- Execution in the example runtime: constants, the comparison of a label of
the bound cluster with a text (a missing key is an error), and the member
function `scores` bound to `clusterScores`. -/
def demoEval (scoreLister : ScoreLister) (prg : DemoAst) (vars : Val) :
    Except String Val :=
  match prg with
  | DemoAst.const v => Except.ok v
  | DemoAst.labelIs key value =>
    match ((vars.find "managedCluster").bind (Val.find · "metadata")).bind
        (Val.find · "labels") with
    | some labels =>
      match labels.find key with
      | some (Val.str v) => Except.ok (Val.bool (v == value))
      | some _ => Except.ok (Val.bool false)
      | none => Except.error ("no such key: " ++ key)
    | none => Except.error "no such key: labels"
  | DemoAst.scores name =>
    evalResult (clusterScores scoreLister [(vars.find "managedCluster").getD Val.null, Val.str name])

/-- The example runtime over a score lister. -/
def demoEnv (scoreLister : ScoreLister) : CelEnv DemoAst DemoAst where
  Compile := demoCompile
  Program := fun ast => Except.ok ast
  Eval := demoEval scoreLister

/-- The quantity `resource.MustParse("3")`. -/
def quantity3 : Quantity :=
  Quantity.mk Format.DecimalSI 3000 3 "3"

/-- The quantity `resource.MustParse("300Mi")`: 314572800 bytes. -/
def quantity300Mi : Quantity :=
  Quantity.mk Format.BinarySI 314572800000 314572800 "300Mi"

/-- The lister of evaluator_test.go 216-235: the same two scores under every name. -/
def fakeScoreLister : ScoreLister := fun _ _ =>
  Except.ok (AddOnPlacementScore.mk (AddOnPlacementScoreStatus.mk
    [ AddOnPlacementScoreItem.mk "cpu" 3 quantity3,
      AddOnPlacementScoreItem.mk "memory" 4 quantity300Mi ]))

/-- A lister over an empty store: every lookup fails as not found. -/
def emptyScoreLister : ScoreLister := fun _ name =>
  Except.error ("addonplacementscore \"" ++ name ++ "\" not found")

/-- The cluster `NewManagedCluster("test").WithLabel("cloud", "Amazon")`. -/
def amazonCluster : ManagedCluster :=
  ManagedCluster.mk "test" (some [("cloud", "Amazon")]) none
    (ManagedClusterStatus.mk [] (ManagedClusterVersion.mk ""))

/-- The cluster of evaluator_test.go 110: label `region`, claim `cloud`. -/
def regionCluster : ManagedCluster :=
  ManagedCluster.mk "test" (some [("region", "us-east-1")]) none
    (ManagedClusterStatus.mk [ManagedClusterClaim.mk "cloud" "Amazon"]
      (ManagedClusterVersion.mk ""))

/-- Navigation into a document along a path of keys. -/
def Val.path (v : Val) (keys : List String) : Option Val :=
  keys.foldl (fun cur key => cur.bind (Val.find · key)) (some v)

/-- The cluster record whose collections are nil and whose scalars are empty. -/
def emptyCluster : ManagedCluster :=
  ManagedCluster.mk "" none none (ManagedClusterStatus.mk [] (ManagedClusterVersion.mk ""))

/-- The verdict of the loop of `Evaluate` read off what each expression does:
the first expression that does not yield `true` decides. -/
def loopOutcome {Ast Prg : Type} (env : CelEnv Ast Prg) (convertedCluster : Val) :
    List String → Outcome
  | [] => Outcome.ret true none
  | e :: rest =>
    match runExpr env convertedCluster e with
    | Step.compileError c =>
      Outcome.ret false (some ("failed to compile CEL expression '" ++ e ++ "': " ++ c))
    | Step.noProgram => Outcome.panic
    | Step.evalError c => Outcome.ret false (some ("CEL evaluation error: " ++ c))
    | Step.value v =>
      if v.isBool && v.asBool then loopOutcome env convertedCluster rest
      else Outcome.ret false none

/-! ## One turn of the loop -/

theorem evalLoop_compileError {Ast Prg : Type} (env : CelEnv Ast Prg) (doc : Val)
    (i : Nat) (e : String) (rest : List String) (tr : List Call) (c : String)
    (h : runExpr env doc e = Step.compileError c) :
    evalLoop env doc i (e :: rest) tr =
      (Outcome.ret false (some ("failed to compile CEL expression '" ++ e ++ "': " ++ c)),
       tr ++ [Call.compile i e]) := by
  unfold runExpr at h
  rw [evalLoop]
  cases hc : env.Compile e with
  | error c1 =>
    simp only [hc, Step.compileError.injEq] at h
    simp [h]
  | ok ast =>
    cases hp : env.Program ast with
    | error c2 => simp [hc, hp] at h
    | ok prg =>
      cases hev : env.Eval prg (activation doc) <;> simp [hc, hp, hev] at h

theorem evalLoop_evalError {Ast Prg : Type} (env : CelEnv Ast Prg) (doc : Val)
    (i : Nat) (e : String) (rest : List String) (tr : List Call) (c : String)
    (h : runExpr env doc e = Step.evalError c) :
    evalLoop env doc i (e :: rest) tr =
      (Outcome.ret false (some ("CEL evaluation error: " ++ c)), tr ++ callsAt i e) := by
  unfold runExpr at h
  rw [evalLoop]
  cases hc : env.Compile e with
  | error c1 => simp [hc] at h
  | ok ast =>
    cases hp : env.Program ast with
    | error c2 => simp [hc, hp] at h
    | ok prg =>
      cases hev : env.Eval prg (activation doc) with
      | error c3 =>
        simp only [hc, hp, hev, Step.evalError.injEq] at h
        simp [hp, hev, h, callsAt]
      | ok v => simp [hc, hp, hev] at h

theorem evalLoop_true {Ast Prg : Type} (env : CelEnv Ast Prg) (doc : Val)
    (i : Nat) (e : String) (rest : List String) (tr : List Call)
    (h : runExpr env doc e = Step.value (Val.bool true)) :
    evalLoop env doc i (e :: rest) tr =
      evalLoop env doc (i + 1) rest (tr ++ callsAt i e) := by
  unfold runExpr at h
  rw [evalLoop]
  cases hc : env.Compile e with
  | error c1 => simp [hc] at h
  | ok ast =>
    cases hp : env.Program ast with
    | error c2 => simp [hc, hp] at h
    | ok prg =>
      cases hev : env.Eval prg (activation doc) with
      | error c3 => simp [hc, hp, hev] at h
      | ok w =>
        simp only [hc, hp, hev, Step.value.injEq] at h
        simp only [hp, hev, h, callsAt]

theorem evalLoop_not_true {Ast Prg : Type} (env : CelEnv Ast Prg) (doc : Val)
    (i : Nat) (e : String) (rest : List String) (tr : List Call) (v : Val)
    (h : runExpr env doc e = Step.value v) (hv : v ≠ Val.bool true) :
    evalLoop env doc i (e :: rest) tr = (Outcome.ret false none, tr ++ callsAt i e) := by
  unfold runExpr at h
  rw [evalLoop]
  cases hc : env.Compile e with
  | error c1 => simp [hc] at h
  | ok ast =>
    cases hp : env.Program ast with
    | error c2 => simp [hc, hp] at h
    | ok prg =>
      cases hev : env.Eval prg (activation doc) with
      | error c3 => simp [hc, hp, hev] at h
      | ok w =>
        simp only [hc, hp, hev, Step.value.injEq] at h
        simp only [hp, hev, callsAt]
        split
        · exact absurd h.symm hv
        · rfl

/-- A run of expressions that all yield `true` is executed in full and the loop
goes on behind it. -/
theorem evalLoop_true_run {Ast Prg : Type} (env : CelEnv Ast Prg) (doc : Val)
    (pre : List String)
    (hpre : ∀ x ∈ pre, runExpr env doc x = Step.value (Val.bool true)) :
    ∀ (i : Nat) (rest : List String) (tr : List Call),
      evalLoop env doc i (pre ++ rest) tr =
        evalLoop env doc (i + pre.length) rest (tr ++ callsFrom i pre) := by
  induction pre with
  | nil => intro i rest tr; simp [callsFrom]
  | cons x xs ih =>
    intro i rest tr
    have hx := hpre x (List.mem_cons_self x xs)
    have hxs : ∀ y ∈ xs, runExpr env doc y = Step.value (Val.bool true) :=
      fun y hy => hpre y (List.mem_cons_of_mem x hy)
    have hlen : i + 1 + xs.length = i + (x :: xs).length := by
      simp only [List.length_cons]; omega
    rw [List.cons_append, evalLoop_true env doc i x _ tr hx, ih hxs, hlen]
    simp only [callsFrom, List.append_assoc]

theorem callsFrom_append (i : Nat) (xs ys : List String) :
    callsFrom i (xs ++ ys) = callsFrom i xs ++ callsFrom (i + xs.length) ys := by
  induction xs generalizing i with
  | nil => simp [callsFrom]
  | cons x xs ih =>
    have hlen : i + 1 + xs.length = i + (xs.length + 1) := by omega
    rw [List.cons_append, callsFrom, callsFrom, ih (i + 1), List.length_cons, hlen,
      List.append_assoc]

theorem callsFrom_pos (es : List String) :
    ∀ (i : Nat) (c : Call), c ∈ callsFrom i es → i ≤ c.pos ∧ c.pos < i + es.length := by
  induction es with
  | nil => intro i c hc; simp [callsFrom] at hc
  | cons x xs ih =>
    intro i c hc
    simp only [callsFrom, callsAt, List.mem_append, List.mem_cons, List.mem_singleton,
      List.not_mem_nil, or_false] at hc
    rcases hc with (h | h | h) | h
    · subst h; simp [Call.pos]
    · subst h; simp [Call.pos]
    · subst h; simp [Call.pos]
    · have := ih (i + 1) c h
      simp only [List.length_cons]
      omega

theorem data_append_infix_left (a b c : String) : contains (a ++ b ++ c) b := by
  unfold contains
  refine ⟨a.data, c.data, ?_⟩
  simp [String.data_append]

theorem contains_append_left (s t sub : String) (h : contains s sub) :
    contains (s ++ t) sub := by
  unfold contains at h ⊢
  rw [String.data_append]
  exact List.IsInfix.trans h (List.infix_append' [] s.data t.data)

theorem data_append_infix_right (a b : String) : contains (a ++ b) b := by
  unfold contains
  refine ⟨a.data, [], ?_⟩
  simp [String.data_append]

/-- The loop on a list that starts with a run of expressions yielding `true`. -/
theorem EvaluateTraced_true_run {Ast Prg : Type} (env : CelEnv Ast Prg)
    (cluster : ManagedCluster) (pre rest : List String)
    (hpre : ∀ x ∈ pre,
      runExpr env (convertManagedCluster cluster) x = Step.value (Val.bool true)) :
    EvaluateTraced env cluster (pre ++ rest) =
      evalLoop env (convertManagedCluster cluster) pre.length rest (callsFrom 0 pre) := by
  unfold EvaluateTraced
  simp only
  rw [evalLoop_true_run env _ pre hpre 0 rest []]
  simp

theorem mem_callsFrom_snoc_pos (pre : List String) (e : String) (c : Call)
    (hc : c ∈ callsFrom 0 (pre ++ [e])) : c.pos ≤ pre.length := by
  have h := callsFrom_pos (pre ++ [e]) 0 c hc
  simp only [List.length_append, List.length_singleton] at h
  omega

/-! ## The evaluator: claims -/

/-- C1: if every expression of the list compiles and, executed against the
converted cluster, yields exactly the boolean `true`, then `Evaluate` returns
`(true, nil)`. -/
theorem Evaluate_all_true {Ast Prg : Type} (env : CelEnv Ast Prg)
    (cluster : ManagedCluster) (expressions : List String)
    (h : ∀ e ∈ expressions,
      runExpr env (convertManagedCluster cluster) e = Step.value (Val.bool true)) :
    Evaluate env cluster expressions = Outcome.ret true none := by
  have hrun := EvaluateTraced_true_run env cluster expressions [] h
  rw [List.append_nil] at hrun
  unfold Evaluate
  rw [hrun, evalLoop]

theorem Evaluate_all_true_witness :
    (∀ e ∈ ["managedCluster.metadata.labels[\"cloud\"] == \"Amazon\"", "true"],
      runExpr (demoEnv fakeScoreLister) (convertManagedCluster amazonCluster) e =
        Step.value (Val.bool true)) ∧
    Evaluate (demoEnv fakeScoreLister) amazonCluster
      ["managedCluster.metadata.labels[\"cloud\"] == \"Amazon\"", "true"] =
      Outcome.ret true none :=
  have h : ∀ e ∈ ["managedCluster.metadata.labels[\"cloud\"] == \"Amazon\"", "true"],
      runExpr (demoEnv fakeScoreLister) (convertManagedCluster amazonCluster) e =
        Step.value (Val.bool true) := by
    intro e he
    simp only [List.mem_cons, List.mem_singleton, List.not_mem_nil, or_false] at he
    rcases he with rfl | rfl <;> rfl
  ⟨h, Evaluate_all_true _ _ _ h⟩

/-- C2: if the expressions before position `i` all yield `true` and the `i`-th
one compiles and executes without error but yields a value other than the boolean
`true`, then `Evaluate` returns `(false, nil)`, and the runtime calls it makes are
those for the expressions up to position `i`: nothing behind it is compiled or
executed, whatever it would do. -/
theorem Evaluate_first_not_true {Ast Prg : Type} (env : CelEnv Ast Prg)
    (cluster : ManagedCluster) (pre : List String) (e : String) (rest : List String)
    (v : Val)
    (hpre : ∀ x ∈ pre,
      runExpr env (convertManagedCluster cluster) x = Step.value (Val.bool true))
    (he : runExpr env (convertManagedCluster cluster) e = Step.value v)
    (hv : v ≠ Val.bool true) :
    Evaluate env cluster (pre ++ e :: rest) = Outcome.ret false none ∧
    EvaluateCalls env cluster (pre ++ e :: rest) = callsFrom 0 (pre ++ [e]) ∧
    ∀ c ∈ EvaluateCalls env cluster (pre ++ e :: rest), c.pos ≤ pre.length := by
  have hrun := EvaluateTraced_true_run env cluster pre (e :: rest) hpre
  rw [evalLoop_not_true env _ _ e rest _ v he hv] at hrun
  have hcalls : EvaluateCalls env cluster (pre ++ e :: rest) = callsFrom 0 (pre ++ [e]) := by
    unfold EvaluateCalls
    rw [hrun, callsFrom_append]
    simp [callsFrom]
  refine ⟨?_, hcalls, ?_⟩
  · unfold Evaluate
    rw [hrun]
  · intro c hc
    rw [hcalls] at hc
    exact mem_callsFrom_snoc_pos pre e c hc

theorem Evaluate_first_not_true_witness :
    (∀ x ∈ ["true"],
      runExpr (demoEnv fakeScoreLister) (convertManagedCluster amazonCluster) x =
        Step.value (Val.bool true)) ∧
    runExpr (demoEnv fakeScoreLister) (convertManagedCluster amazonCluster) "[1, 2]" =
      Step.value (Val.list [Val.int 1, Val.int 2]) ∧
    Val.list [Val.int 1, Val.int 2] ≠ Val.bool true ∧
    Evaluate (demoEnv fakeScoreLister) amazonCluster (["true"] ++ "[1, 2]" :: ["1 +"]) =
      Outcome.ret false none ∧
    EvaluateCalls (demoEnv fakeScoreLister) amazonCluster (["true"] ++ "[1, 2]" :: ["1 +"]) =
      callsFrom 0 (["true"] ++ ["[1, 2]"]) ∧
    ∀ c ∈ EvaluateCalls (demoEnv fakeScoreLister) amazonCluster
        (["true"] ++ "[1, 2]" :: ["1 +"]), c.pos ≤ ["true"].length :=
  have hpre : ∀ x ∈ ["true"],
      runExpr (demoEnv fakeScoreLister) (convertManagedCluster amazonCluster) x =
        Step.value (Val.bool true) := by
    intro x hx
    simp only [List.mem_singleton] at hx
    subst hx
    rfl
  have hv : Val.list [Val.int 1, Val.int 2] ≠ Val.bool true := by
    intro h; cases h
  ⟨hpre, rfl, hv,
    Evaluate_first_not_true (demoEnv fakeScoreLister) amazonCluster ["true"] "[1, 2]"
      ["1 +"] (Val.list [Val.int 1, Val.int 2]) hpre rfl hv⟩

/-- C3: if the expressions before position `i` all yield `true` and the `i`-th
one fails to compile with cause `c`, then `Evaluate` returns `(false, err)` with
`err` the non-nil error "failed to compile CEL expression '<expr>': <c>", whose
text contains the expression and the cause, and the only runtime calls are those
for the expressions before `i` and the compilation of the `i`-th. -/
theorem Evaluate_compile_failure {Ast Prg : Type} (env : CelEnv Ast Prg)
    (cluster : ManagedCluster) (pre : List String) (e : String) (rest : List String)
    (c : String)
    (hpre : ∀ x ∈ pre,
      runExpr env (convertManagedCluster cluster) x = Step.value (Val.bool true))
    (he : runExpr env (convertManagedCluster cluster) e = Step.compileError c) :
    ∃ msg : String,
      Evaluate env cluster (pre ++ e :: rest) = Outcome.ret false (some msg) ∧
      msg = "failed to compile CEL expression '" ++ e ++ "': " ++ c ∧
      contains msg e ∧ contains msg c ∧
      EvaluateCalls env cluster (pre ++ e :: rest) =
        callsFrom 0 pre ++ [Call.compile pre.length e] ∧
      ∀ k ∈ EvaluateCalls env cluster (pre ++ e :: rest), k.pos ≤ pre.length := by
  have hrun := EvaluateTraced_true_run env cluster pre (e :: rest) hpre
  rw [evalLoop_compileError env _ _ e rest _ c he] at hrun
  have hcalls : EvaluateCalls env cluster (pre ++ e :: rest) =
      callsFrom 0 pre ++ [Call.compile pre.length e] := by
    unfold EvaluateCalls
    rw [hrun]
  refine ⟨_, ?_, rfl, ?_, ?_, hcalls, ?_⟩
  · unfold Evaluate
    rw [hrun]
  · exact contains_append_left _ c e (data_append_infix_left _ e _)
  · exact data_append_infix_right _ c
  · intro k hk
    rw [hcalls, List.mem_append, List.mem_singleton] at hk
    rcases hk with hk | hk
    · have := callsFrom_pos pre 0 k hk
      omega
    · subst hk
      simp [Call.pos]

theorem Evaluate_compile_failure_witness :
    (∀ x ∈ ["true"],
      runExpr (demoEnv fakeScoreLister) (convertManagedCluster amazonCluster) x =
        Step.value (Val.bool true)) ∧
    runExpr (demoEnv fakeScoreLister) (convertManagedCluster amazonCluster) "1 +" =
      Step.compileError "Syntax error: mismatched input" ∧
    ∃ msg : String,
      Evaluate (demoEnv fakeScoreLister) amazonCluster (["true"] ++ "1 +" :: ["false"]) =
        Outcome.ret false (some msg) ∧
      msg = "failed to compile CEL expression '" ++ "1 +" ++ "': " ++
        "Syntax error: mismatched input" ∧
      contains msg "1 +" ∧ contains msg "Syntax error: mismatched input" ∧
      EvaluateCalls (demoEnv fakeScoreLister) amazonCluster
          (["true"] ++ "1 +" :: ["false"]) =
        callsFrom 0 ["true"] ++ [Call.compile ["true"].length "1 +"] ∧
      ∀ k ∈ EvaluateCalls (demoEnv fakeScoreLister) amazonCluster
          (["true"] ++ "1 +" :: ["false"]), k.pos ≤ ["true"].length :=
  have hpre : ∀ x ∈ ["true"],
      runExpr (demoEnv fakeScoreLister) (convertManagedCluster amazonCluster) x =
        Step.value (Val.bool true) := by
    intro x hx
    simp only [List.mem_singleton] at hx
    subst hx
    rfl
  ⟨hpre, rfl,
    Evaluate_compile_failure (demoEnv fakeScoreLister) amazonCluster ["true"] "1 +"
      ["false"] "Syntax error: mismatched input" hpre rfl⟩

/-- C4: if the expressions before position `i` all yield `true` and the `i`-th
one compiles but its execution on the cluster document fails with cause `c`, then
`Evaluate` returns `(false, err)` with `err` the non-nil error
"CEL evaluation error: <c>", and no expression behind position `i` is compiled or
executed. -/
theorem Evaluate_execution_failure {Ast Prg : Type} (env : CelEnv Ast Prg)
    (cluster : ManagedCluster) (pre : List String) (e : String) (rest : List String)
    (c : String)
    (hpre : ∀ x ∈ pre,
      runExpr env (convertManagedCluster cluster) x = Step.value (Val.bool true))
    (he : runExpr env (convertManagedCluster cluster) e = Step.evalError c) :
    ∃ msg : String,
      Evaluate env cluster (pre ++ e :: rest) = Outcome.ret false (some msg) ∧
      msg = "CEL evaluation error: " ++ c ∧
      contains msg c ∧
      EvaluateCalls env cluster (pre ++ e :: rest) = callsFrom 0 (pre ++ [e]) ∧
      ∀ k ∈ EvaluateCalls env cluster (pre ++ e :: rest), k.pos ≤ pre.length := by
  have hrun := EvaluateTraced_true_run env cluster pre (e :: rest) hpre
  rw [evalLoop_evalError env _ _ e rest _ c he] at hrun
  have hcalls : EvaluateCalls env cluster (pre ++ e :: rest) = callsFrom 0 (pre ++ [e]) := by
    unfold EvaluateCalls
    rw [hrun, callsFrom_append]
    simp [callsFrom]
  refine ⟨_, ?_, rfl, ?_, hcalls, ?_⟩
  · unfold Evaluate
    rw [hrun]
  · exact data_append_infix_right _ c
  · intro k hk
    rw [hcalls] at hk
    exact mem_callsFrom_snoc_pos pre e k hk

theorem Evaluate_execution_failure_witness :
    (∀ x ∈ ["true"],
      runExpr (demoEnv fakeScoreLister) (convertManagedCluster regionCluster) x =
        Step.value (Val.bool true)) ∧
    runExpr (demoEnv fakeScoreLister) (convertManagedCluster regionCluster)
        "managedCluster.metadata.labels[\"cloud\"] == \"Amazon\"" =
      Step.evalError "no such key: cloud" ∧
    ∃ msg : String,
      Evaluate (demoEnv fakeScoreLister) regionCluster
          (["true"] ++ "managedCluster.metadata.labels[\"cloud\"] == \"Amazon\"" :: ["1 +"]) =
        Outcome.ret false (some msg) ∧
      msg = "CEL evaluation error: " ++ "no such key: cloud" ∧
      contains msg "no such key: cloud" ∧
      EvaluateCalls (demoEnv fakeScoreLister) regionCluster
          (["true"] ++ "managedCluster.metadata.labels[\"cloud\"] == \"Amazon\"" :: ["1 +"]) =
        callsFrom 0 (["true"] ++ ["managedCluster.metadata.labels[\"cloud\"] == \"Amazon\""]) ∧
      ∀ k ∈ EvaluateCalls (demoEnv fakeScoreLister) regionCluster
          (["true"] ++ "managedCluster.metadata.labels[\"cloud\"] == \"Amazon\"" :: ["1 +"]),
        k.pos ≤ ["true"].length :=
  have hpre : ∀ x ∈ ["true"],
      runExpr (demoEnv fakeScoreLister) (convertManagedCluster regionCluster) x =
        Step.value (Val.bool true) := by
    intro x hx
    simp only [List.mem_singleton] at hx
    subst hx
    rfl
  ⟨hpre, rfl,
    Evaluate_execution_failure (demoEnv fakeScoreLister) regionCluster ["true"]
      "managedCluster.metadata.labels[\"cloud\"] == \"Amazon\"" ["1 +"]
      "no such key: cloud" hpre rfl⟩

/-- C5, as stated, fails: the second expression of the list fails to compile,
yet `Evaluate` returns the no-match outcome `(false, nil)`, because the first
expression yields `false` and the loop returns before the second is compiled. -/
theorem Evaluate_failure_behind_no_match :
    Fails (demoEnv fakeScoreLister) (convertManagedCluster amazonCluster) "1 +" ∧
    "1 +" ∈ ["false", "1 +"] ∧
    Evaluate (demoEnv fakeScoreLister) amazonCluster ["false", "1 +"] =
      Outcome.ret false none ∧
    ¬ ∃ msg : String,
      Evaluate (demoEnv fakeScoreLister) amazonCluster ["false", "1 +"] =
        Outcome.ret false (some msg) := by
  refine ⟨Or.inl ⟨"Syntax error: mismatched input", rfl⟩, by simp, rfl, ?_⟩
  rintro ⟨msg, h⟩
  have h2 : Evaluate (demoEnv fakeScoreLister) amazonCluster ["false", "1 +"] =
      Outcome.ret false none := rfl
  rw [h2] at h
  cases h

/-- The loop returns a non-nil error when it meets a failing expression before
any expression that yields a value other than `true`. -/
theorem evalLoop_failure_reached {Ast Prg : Type} (env : CelEnv Ast Prg) (doc : Val)
    (expressions : List String) :
    ∀ (i : Nat) (e : String) (k : Nat) (tr : List Call),
      expressions[i]? = some e → Fails env doc e →
      (∀ (j : Nat) (x : String), j < i → expressions[j]? = some x →
        runExpr env doc x = Step.value (Val.bool true) ∨ Fails env doc x) →
      ∃ msg : String, (evalLoop env doc k expressions tr).1 = Outcome.ret false (some msg) := by
  have hfail : ∀ (x : String) (rest : List String) (k : Nat) (tr : List Call),
      Fails env doc x →
      ∃ msg : String, (evalLoop env doc k (x :: rest) tr).1 = Outcome.ret false (some msg) := by
    intro x rest k tr hx
    rcases hx with ⟨c, hc⟩ | ⟨c, hc⟩
    · exact ⟨_, by rw [evalLoop_compileError env doc k x rest tr c hc]⟩
    · exact ⟨_, by rw [evalLoop_evalError env doc k x rest tr c hc]⟩
  induction expressions with
  | nil => intro i e k tr hi; simp at hi
  | cons x xs ih =>
    intro i e k tr hi he hbefore
    cases i with
    | zero =>
      simp only [List.getElem?_cons_zero, Option.some.injEq] at hi
      subst hi
      exact hfail x xs k tr he
    | succ n =>
      rcases hbefore 0 x (Nat.succ_pos n) (by simp) with hx | hx
      · rw [evalLoop_true env doc k x xs tr hx]
        refine ih n e (k + 1) _ (by simpa using hi) he ?_
        intro j y hj hy
        exact hbefore (j + 1) y (Nat.succ_lt_succ hj) (by simpa using hy)
      · exact hfail x xs k tr hx

theorem mem_callsAt_pos (k : Nat) (x : String) (c : Call) (hc : c ∈ callsAt k x) :
    c.pos = k := by
  simp only [callsAt, List.mem_cons, List.mem_singleton, List.not_mem_nil, or_false] at hc
  rcases hc with h | h | h <;> subst h <;> rfl

/-- The calls the loop records when it meets a failing expression at position
`i` of the list, before any expression that yields a value other than `true`: none
of them is for an expression behind that position. -/
theorem evalLoop_failure_calls {Ast Prg : Type} (env : CelEnv Ast Prg) (doc : Val)
    (expressions : List String) :
    ∀ (i : Nat) (e : String) (k : Nat) (tr : List Call),
      expressions[i]? = some e → Fails env doc e →
      (∀ (j : Nat) (x : String), j < i → expressions[j]? = some x →
        runExpr env doc x = Step.value (Val.bool true) ∨ Fails env doc x) →
      ∀ c ∈ (evalLoop env doc k expressions tr).2, c ∈ tr ∨ c.pos ≤ k + i := by
  have hfail : ∀ (x : String) (rest : List String) (k n : Nat) (tr : List Call),
      Fails env doc x →
      ∀ c ∈ (evalLoop env doc k (x :: rest) tr).2, c ∈ tr ∨ c.pos ≤ k + n := by
    intro x rest k n tr hx c hc
    rcases hx with ⟨cause, hcause⟩ | ⟨cause, hcause⟩
    · rw [evalLoop_compileError env doc k x rest tr cause hcause] at hc
      rcases List.mem_append.mp hc with hc | hc
      · exact Or.inl hc
      · right
        rw [List.mem_singleton] at hc
        subst hc
        exact Nat.le_add_right k n
    · rw [evalLoop_evalError env doc k x rest tr cause hcause] at hc
      rcases List.mem_append.mp hc with hc | hc
      · exact Or.inl hc
      · right
        rw [mem_callsAt_pos k x c hc]
        exact Nat.le_add_right k n
  induction expressions with
  | nil => intro i e k tr hi; simp at hi
  | cons x xs ih =>
    intro i e k tr hi he hbefore
    cases i with
    | zero =>
      simp only [List.getElem?_cons_zero, Option.some.injEq] at hi
      subst hi
      exact hfail x xs k 0 tr he
    | succ n =>
      rcases hbefore 0 x (Nat.succ_pos n) (by simp) with hx | hx
      · rw [evalLoop_true env doc k x xs tr hx]
        intro c hc
        have hrest := ih n e (k + 1) (tr ++ callsAt k x) (by simpa using hi) he
          (fun j y hj hy => hbefore (j + 1) y (Nat.succ_lt_succ hj) (by simpa using hy)) c hc
        rcases hrest with hmem | hpos
        · rcases List.mem_append.mp hmem with hmem | hmem
          · exact Or.inl hmem
          · right
            rw [mem_callsAt_pos k x c hmem]
            exact Nat.le_add_right k (n + 1)
        · right
          omega
      · exact hfail x xs k (n + 1) tr hx

/-- C5, amended: if some expression fails to compile or fails during execution
and every expression before it either yields exactly `true` or fails itself, then
`Evaluate` returns `(false, err)` with `err` non-nil, never the no-match outcome
`(false, nil)`, and no expression behind that position is compiled or executed. -/
theorem Evaluate_failure_reached {Ast Prg : Type} (env : CelEnv Ast Prg)
    (cluster : ManagedCluster) (expressions : List String) (i : Nat) (e : String)
    (hi : expressions[i]? = some e)
    (he : Fails env (convertManagedCluster cluster) e)
    (hbefore : ∀ (j : Nat) (x : String), j < i → expressions[j]? = some x →
      runExpr env (convertManagedCluster cluster) x = Step.value (Val.bool true) ∨
      Fails env (convertManagedCluster cluster) x) :
    (∃ msg : String, Evaluate env cluster expressions = Outcome.ret false (some msg)) ∧
    Evaluate env cluster expressions ≠ Outcome.ret false none ∧
    ∀ c ∈ EvaluateCalls env cluster expressions, c.pos ≤ i := by
  have hres : ∃ msg : String,
      Evaluate env cluster expressions = Outcome.ret false (some msg) := by
    unfold Evaluate EvaluateTraced
    exact evalLoop_failure_reached env _ expressions i e 0 [] hi he hbefore
  refine ⟨hres, ?_, ?_⟩
  · obtain ⟨msg, hmsg⟩ := hres
    rw [hmsg]
    intro h
    cases h
  · intro c hc
    unfold EvaluateCalls EvaluateTraced at hc
    rcases evalLoop_failure_calls env _ expressions i e 0 [] hi he hbefore c hc with h | h
    · simp at h
    · simpa using h

theorem Evaluate_failure_reached_witness :
    ["true", "1 +", "false"][1]? = some "1 +" ∧
    Fails (demoEnv fakeScoreLister) (convertManagedCluster amazonCluster) "1 +" ∧
    (∀ (j : Nat) (x : String), j < 1 → ["true", "1 +", "false"][j]? = some x →
      runExpr (demoEnv fakeScoreLister) (convertManagedCluster amazonCluster) x =
        Step.value (Val.bool true) ∨
      Fails (demoEnv fakeScoreLister) (convertManagedCluster amazonCluster) x) ∧
    (∃ msg : String,
      Evaluate (demoEnv fakeScoreLister) amazonCluster ["true", "1 +", "false"] =
        Outcome.ret false (some msg)) ∧
    Evaluate (demoEnv fakeScoreLister) amazonCluster ["true", "1 +", "false"] ≠
      Outcome.ret false none ∧
    ∀ c ∈ EvaluateCalls (demoEnv fakeScoreLister) amazonCluster ["true", "1 +", "false"],
      c.pos ≤ 1 :=
  have he : Fails (demoEnv fakeScoreLister) (convertManagedCluster amazonCluster) "1 +" :=
    Or.inl ⟨"Syntax error: mismatched input", rfl⟩
  have hbefore : ∀ (j : Nat) (x : String), j < 1 → ["true", "1 +", "false"][j]? = some x →
      runExpr (demoEnv fakeScoreLister) (convertManagedCluster amazonCluster) x =
        Step.value (Val.bool true) ∨
      Fails (demoEnv fakeScoreLister) (convertManagedCluster amazonCluster) x := by
    intro j x hj hx
    have hj0 : j = 0 := by omega
    subst hj0
    simp only [List.getElem?_cons_zero, Option.some.injEq] at hx
    subst hx
    exact Or.inl rfl
  ⟨rfl, he, hbefore,
    Evaluate_failure_reached (demoEnv fakeScoreLister) amazonCluster
      ["true", "1 +", "false"] 1 "1 +" rfl he hbefore⟩

/-- C6: for every cluster, `Evaluate` on the empty expression list returns
`(true, nil)`, without a call into the runtime. -/
theorem Evaluate_empty {Ast Prg : Type} (env : CelEnv Ast Prg) (cluster : ManagedCluster) :
    Evaluate env cluster [] = Outcome.ret true none ∧ EvaluateCalls env cluster [] = [] :=
  ⟨rfl, rfl⟩

/-! ## Scores -/

theorem scoreToCel_find_quantity (name : String) (value : Int) (q : Quantity) :
    (scoreToCel name value q).find "quantity" =
      some (if q.Format = Format.DecimalSI ∧ (1000 : Int) ∣ q.MilliValue then Val.int q.Value
            else Val.str q.String) := by
  have hkey : (scoreToCel name value q).find "quantity" =
      some (if q.Format = Format.DecimalSI ∧ Int.tmod q.MilliValue 1000 = 0 then
        Val.int q.Value else Val.str q.String) := rfl
  rw [hkey]
  simp only [Int.dvd_iff_tmod_eq_zero]

theorem scoreToCel_find_name (name : String) (value : Int) (q : Quantity) :
    (scoreToCel name value q).find "name" = some (Val.str name) := rfl

theorem scoreToCel_find_value (name : String) (value : Int) (q : Quantity) :
    (scoreToCel name value q).find "value" = some (Val.int value) := rfl

/-- C7, as stated, fails: the milli-scaled value of the quantity `300Mi` is
divisible by 1000 (the quantity is the integer 314572800), yet `scoreToCel`
exposes it as the string "300Mi" and not as a number. -/
theorem scoreToCel_binary_integer_is_string :
    (1000 : Int) ∣ quantity300Mi.MilliValue ∧
    (scoreToCel "memory" 4 quantity300Mi).find "quantity" = some (Val.str "300Mi") ∧
    ¬ ∃ n : Int, (scoreToCel "memory" 4 quantity300Mi).find "quantity" = some (Val.int n) := by
  refine ⟨by decide, rfl, ?_⟩
  rintro ⟨n, h⟩
  have h2 : (scoreToCel "memory" 4 quantity300Mi).find "quantity" = some (Val.str "300Mi") :=
    rfl
  rw [h2] at h
  cases h

/-- C7, amended: `scoreToCel` exposes the quantity field as a number exactly when
the quantity has the format `DecimalSI` and its milli-scaled value is divisible by
1000; the number is then `q.Value()`, and in every other case the field is the
canonical string `q.String()`.  The quantity `3` is exposed as the number 3 and
`300Mi` as the string "300Mi". -/
theorem scoreToCel_quantity_rule (name : String) (value : Int) (q : Quantity) :
    ((∃ n : Int, (scoreToCel name value q).find "quantity" = some (Val.int n)) ↔
      (q.Format = Format.DecimalSI ∧ (1000 : Int) ∣ q.MilliValue)) ∧
    (scoreToCel name value q).find "quantity" =
      some (if q.Format = Format.DecimalSI ∧ (1000 : Int) ∣ q.MilliValue then Val.int q.Value
            else Val.str q.String) ∧
    (scoreToCel "cpu" 3 quantity3).find "quantity" = some (Val.int 3) ∧
    (scoreToCel "memory" 4 quantity300Mi).find "quantity" = some (Val.str "300Mi") := by
  refine ⟨?_, scoreToCel_find_quantity name value q, rfl, rfl⟩
  rw [scoreToCel_find_quantity]
  constructor
  · rintro ⟨n, hn⟩
    by_contra hcond
    rw [if_neg hcond] at hn
    cases hn
  · intro hcond
    exact ⟨q.Value, by rw [if_pos hcond]⟩

/-- Filling the slots of the slice one index after the other builds the list of
the converted scores. -/
theorem fill_slots (l : List AddOnPlacementScoreItem) :
    ∀ (pre suf : List Val), suf.length = l.length →
      (l.enumFrom pre.length).foldl
        (fun acc p => acc.set p.1 (scoreToCel p.2.Name p.2.Value p.2.Quantity))
        (pre ++ suf) =
      pre ++ l.map (fun sc => scoreToCel sc.Name sc.Value sc.Quantity) := by
  induction l with
  | nil =>
    intro pre suf hlen
    have hsuf : suf = [] := List.length_eq_zero.mp (by simpa using hlen)
    simp [hsuf]
  | cons x xs ih =>
    intro pre suf hlen
    cases suf with
    | nil => simp at hlen
    | cons s ss =>
      have hss : ss.length = xs.length := by simpa using hlen
      have hstep : (pre ++ s :: ss).set pre.length (scoreToCel x.Name x.Value x.Quantity) =
          (pre ++ [scoreToCel x.Name x.Value x.Quantity]) ++ ss := by
        rw [List.set_append_right _ _ (Nat.le_refl _)]
        simp
      have hnext := ih (pre ++ [scoreToCel x.Name x.Value x.Quantity]) ss hss
      rw [List.length_append, List.length_singleton] at hnext
      rw [List.enumFrom_cons, List.foldl_cons, hstep, hnext]
      simp

theorem fillScores_eq_map (scores : List AddOnPlacementScoreItem) :
    fillScores scores = scores.map (fun sc => scoreToCel sc.Name sc.Value sc.Quantity) := by
  have h := fill_slots scores [] (List.replicate scores.length Val.null) (by simp)
  simpa [fillScores, List.enum] using h

/-- What `clusterScores` does once the cluster name has been read off the document. -/
theorem clusterScores_lookup (scoreLister : ScoreLister) (cluster : Val)
    (clusterName scoreSetName : String)
    (hname : (cluster.find "metadata").bind (Val.find · "name") = some (Val.str clusterName)) :
    clusterScores scoreLister [cluster, Val.str scoreSetName] =
      match scoreLister clusterName scoreSetName with
      | Except.error err => some (Val.err ("failed to list scores: " ++ err))
      | Except.ok scores => some (Val.list (fillScores scores.Status.Scores)) := by
  cases cluster with
  | map kvs =>
    cases hmd : (Val.map kvs).find "metadata" with
    | none => simp [hmd] at hname
    | some md =>
      rw [hmd, Option.some_bind] at hname
      cases md with
      | map fields => simp only [clusterScores, hmd, hname]
      | _ => simp [Val.find] at hname
  | _ => simp [Val.find] at hname

theorem scoreToCel_eq (name : String) (value : Int) (q : Quantity) :
    scoreToCel name value q =
      Val.map
        [ ("name", Val.str name), ("value", Val.int value),
          ("quantity",
            if q.Format = Format.DecimalSI ∧ (1000 : Int) ∣ q.MilliValue then Val.int q.Value
            else Val.str q.String) ] := by
  unfold scoreToCel
  simp only [Int.dvd_iff_tmod_eq_zero]

/-- C8: when the lookup under the document's `metadata.name` (as namespace) and
the score-set name (as key) succeeds, `clusterScores` returns a list with one
item per score entry of the score set, in the same order: the `i`-th item is
`scoreToCel` of the `i`-th entry, that is the map of its name, its value and its
quantity, the quantity being the number `q.Value()` when the format is `DecimalSI`
and the milli value is divisible by 1000 and the string `q.String()` otherwise. -/
theorem clusterScores_success (scoreLister : ScoreLister) (cluster : Val)
    (clusterName scoreSetName : String) (scores : AddOnPlacementScore)
    (hname : (cluster.find "metadata").bind (Val.find · "name") = some (Val.str clusterName))
    (hget : scoreLister clusterName scoreSetName = Except.ok scores) :
    ∃ items : List Val,
      clusterScores scoreLister [cluster, Val.str scoreSetName] = some (Val.list items) ∧
      items.length = scores.Status.Scores.length ∧
      ∀ (i : Nat) (sc : AddOnPlacementScoreItem), scores.Status.Scores[i]? = some sc →
        items[i]? = some (scoreToCel sc.Name sc.Value sc.Quantity) ∧
        (scoreToCel sc.Name sc.Value sc.Quantity).find "name" = some (Val.str sc.Name) ∧
        (scoreToCel sc.Name sc.Value sc.Quantity).find "value" = some (Val.int sc.Value) ∧
        (scoreToCel sc.Name sc.Value sc.Quantity).find "quantity" =
          some (if sc.Quantity.Format = Format.DecimalSI ∧
                  (1000 : Int) ∣ sc.Quantity.MilliValue then Val.int sc.Quantity.Value
                else Val.str sc.Quantity.String) ∧
        items[i]? =
          some (Val.map
            [ ("name", Val.str sc.Name), ("value", Val.int sc.Value),
              ("quantity",
                if sc.Quantity.Format = Format.DecimalSI ∧
                    (1000 : Int) ∣ sc.Quantity.MilliValue then Val.int sc.Quantity.Value
                else Val.str sc.Quantity.String) ]) := by
  refine ⟨fillScores scores.Status.Scores, ?_, ?_, ?_⟩
  · rw [clusterScores_lookup scoreLister cluster clusterName scoreSetName hname, hget]
  · rw [fillScores_eq_map, List.length_map]
  · intro i sc hsc
    have hitem : (fillScores scores.Status.Scores)[i]? =
        some (scoreToCel sc.Name sc.Value sc.Quantity) := by
      rw [fillScores_eq_map, List.getElem?_map, hsc]
      rfl
    refine ⟨hitem, rfl, rfl, scoreToCel_find_quantity _ _ _, ?_⟩
    rw [hitem, scoreToCel_eq]

theorem clusterScores_success_witness :
    ((convertManagedCluster amazonCluster).find "metadata").bind (Val.find · "name") =
      some (Val.str "test") ∧
    fakeScoreLister "test" "test-score" =
      Except.ok (AddOnPlacementScore.mk (AddOnPlacementScoreStatus.mk
        [ AddOnPlacementScoreItem.mk "cpu" 3 quantity3,
          AddOnPlacementScoreItem.mk "memory" 4 quantity300Mi ])) ∧
    clusterScores fakeScoreLister [convertManagedCluster amazonCluster, Val.str "test-score"] =
      some (Val.list
        [ Val.map [("name", Val.str "cpu"), ("value", Val.int 3), ("quantity", Val.int 3)],
          Val.map [("name", Val.str "memory"), ("value", Val.int 4),
            ("quantity", Val.str "300Mi")] ]) ∧
    ∃ items : List Val,
      clusterScores fakeScoreLister [convertManagedCluster amazonCluster, Val.str "test-score"] =
        some (Val.list items) ∧
      items.length = 2 ∧
      ∀ (i : Nat) (sc : AddOnPlacementScoreItem),
        [ AddOnPlacementScoreItem.mk "cpu" 3 quantity3,
          AddOnPlacementScoreItem.mk "memory" 4 quantity300Mi ][i]? = some sc →
        items[i]? = some (scoreToCel sc.Name sc.Value sc.Quantity) ∧
        (scoreToCel sc.Name sc.Value sc.Quantity).find "name" = some (Val.str sc.Name) ∧
        (scoreToCel sc.Name sc.Value sc.Quantity).find "value" = some (Val.int sc.Value) ∧
        (scoreToCel sc.Name sc.Value sc.Quantity).find "quantity" =
          some (if sc.Quantity.Format = Format.DecimalSI ∧
                  (1000 : Int) ∣ sc.Quantity.MilliValue then Val.int sc.Quantity.Value
                else Val.str sc.Quantity.String) ∧
        items[i]? =
          some (Val.map
            [ ("name", Val.str sc.Name), ("value", Val.int sc.Value),
              ("quantity",
                if sc.Quantity.Format = Format.DecimalSI ∧
                    (1000 : Int) ∣ sc.Quantity.MilliValue then Val.int sc.Quantity.Value
                else Val.str sc.Quantity.String) ]) :=
  ⟨rfl, rfl, rfl,
    clusterScores_success fakeScoreLister (convertManagedCluster amazonCluster) "test"
      "test-score" _ rfl rfl⟩

theorem contains_append_right (s t sub : String) (h : contains t sub) :
    contains (s ++ t) sub := by
  unfold contains at h ⊢
  rw [String.data_append]
  exact List.IsInfix.trans h (List.suffix_append s.data t.data).isInfix

theorem failed_to_list_scores_tag (c : String) :
    contains ("failed to list scores: " ++ c) "failed to list scores" := by
  have hsplit : "failed to list scores: " = "failed to list scores" ++ ": " := by decide
  rw [hsplit]
  have h := data_append_infix_left "" "failed to list scores" (": " ++ c)
  have hempty : "" ++ "failed to list scores" = "failed to list scores" := by decide
  rw [hempty] at h
  unfold contains at h ⊢
  simpa [String.data_append] using h

/-- C9: when the lookup under the document's `metadata.name` and the score-set
name fails with cause `c`, `clusterScores` returns the error value
"failed to list scores: <c>" and no list; an `Evaluate` call on an expression whose
program evaluates to the result of that `scores` call returns `(false, err)` with
`err` containing "failed to list scores". -/
theorem clusterScores_failure (scoreLister : ScoreLister) (cluster : Val)
    (clusterName scoreSetName c : String)
    (hname : (cluster.find "metadata").bind (Val.find · "name") = some (Val.str clusterName))
    (hget : scoreLister clusterName scoreSetName = Except.error c) :
    clusterScores scoreLister [cluster, Val.str scoreSetName] =
      some (Val.err ("failed to list scores: " ++ c)) ∧
    (∀ items : List Val,
      clusterScores scoreLister [cluster, Val.str scoreSetName] ≠ some (Val.list items)) ∧
    ∀ {Ast Prg : Type} (env : CelEnv Ast Prg) (mc : ManagedCluster) (expr : String),
      convertManagedCluster mc = cluster →
      (∃ (ast : Ast) (prg : Prg), env.Compile expr = Except.ok ast ∧
        env.Program ast = Except.ok prg ∧
        env.Eval prg (activation cluster) =
          evalResult (clusterScores scoreLister [cluster, Val.str scoreSetName])) →
      ∃ msg : String,
        Evaluate env mc [expr] = Outcome.ret false (some msg) ∧
        msg = "CEL evaluation error: " ++ ("failed to list scores: " ++ c) ∧
        contains msg "failed to list scores" := by
  have hres : clusterScores scoreLister [cluster, Val.str scoreSetName] =
      some (Val.err ("failed to list scores: " ++ c)) := by
    rw [clusterScores_lookup scoreLister cluster clusterName scoreSetName hname, hget]
  refine ⟨hres, ?_, ?_⟩
  · intro items h
    rw [hres] at h
    cases h
  · intro Ast Prg env mc expr hmc hrun
    obtain ⟨ast, prg, hc, hp, hev⟩ := hrun
    rw [hres] at hev
    have hstep : runExpr env (convertManagedCluster mc) expr =
        Step.evalError ("failed to list scores: " ++ c) := by
      rw [hmc]
      simp only [runExpr, hc, hp, hev, evalResult]
    refine ⟨_, ?_, rfl, contains_append_right _ _ _ (failed_to_list_scores_tag c)⟩
    unfold Evaluate EvaluateTraced
    simp only
    rw [evalLoop_evalError env _ 0 expr [] [] _ hstep]

theorem clusterScores_failure_witness :
    ((convertManagedCluster regionCluster).find "metadata").bind (Val.find · "name") =
      some (Val.str "test") ∧
    emptyScoreLister "test" "invalid-score" =
      Except.error "addonplacementscore \"invalid-score\" not found" ∧
    clusterScores emptyScoreLister
        [convertManagedCluster regionCluster, Val.str "invalid-score"] =
      some (Val.err ("failed to list scores: " ++
        "addonplacementscore \"invalid-score\" not found")) ∧
    ∃ msg : String,
      Evaluate (demoEnv emptyScoreLister) regionCluster
          ["managedCluster.scores(\"invalid-score\")"] = Outcome.ret false (some msg) ∧
      msg = "CEL evaluation error: " ++ ("failed to list scores: " ++
        "addonplacementscore \"invalid-score\" not found") ∧
      contains msg "failed to list scores" :=
  have h := clusterScores_failure emptyScoreLister (convertManagedCluster regionCluster)
    "test" "invalid-score" "addonplacementscore \"invalid-score\" not found" rfl rfl
  ⟨rfl, rfl, h.1,
    h.2.2 (demoEnv emptyScoreLister) regionCluster "managedCluster.scores(\"invalid-score\")"
      rfl ⟨DemoAst.scores "invalid-score", DemoAst.scores "invalid-score", rfl, rfl, rfl⟩⟩

/-! ## Version comparison -/

theorem threeWay_pos (o : Ordering) : threeWay o > 0 ↔ o = Ordering.gt := by
  cases o <;> simp [threeWay]

theorem threeWay_neg (o : Ordering) : threeWay o < 0 ↔ o = Ordering.lt := by
  cases o <;> simp [threeWay]

theorem compareVersions_semver (s1 s2 : String) (a b : SemVer) (op : String)
    (h1 : parseSemVer s1.data = some a) (h2 : parseSemVer s2.data = some b) :
    compareVersions semverLib (some (Val.str s1)) (some (Val.str s2)) op =
      if op = "versionIsGreaterThan" then Val.bool (decide (threeWay (a.precedence b) > 0))
      else Val.bool (decide (threeWay (a.precedence b) < 0)) := by
  simp only [compareVersions, Val.asString, semverLib, h1, h2]

theorem parseSemVer_v (s : List Char) (h : s.head? ≠ some 'v') :
    parseSemVer ('v' :: s) = parseSemVer s := by
  have hstrip : stripV s = s := by
    unfold stripV
    split
    · exact absurd rfl h
    · rfl
  unfold parseSemVer
  rw [hstrip]
  rfl

/-- C10: for two strings that parse as semantic versions (with or without a
leading `v`), `versionIsGreaterThan` returns `true` exactly when the first is
greater than the second under semantic-version precedence and `versionIsLessThan`
returns `true` exactly when it is less; a `v` put in front of an operand that has
none does not change either result; `versionIsGreaterThan("1.25.0","1.24.0")` is
`true` and `versionIsLessThan("1.25.0","1.24.0")` is `false`, also with `v` in
front of either operand. -/
theorem version_comparison (s1 s2 : String) (a b : SemVer)
    (h1 : parseSemVer s1.data = some a) (h2 : parseSemVer s2.data = some b) :
    versionIsGreaterThan semverLib [Val.str s1, Val.str s2] =
      some (Val.bool (decide (a.precedence b = Ordering.gt))) ∧
    versionIsLessThan semverLib [Val.str s1, Val.str s2] =
      some (Val.bool (decide (a.precedence b = Ordering.lt))) ∧
    (s1.data.head? ≠ some 'v' →
      versionIsGreaterThan semverLib [Val.str ("v" ++ s1), Val.str s2] =
        versionIsGreaterThan semverLib [Val.str s1, Val.str s2] ∧
      versionIsLessThan semverLib [Val.str ("v" ++ s1), Val.str s2] =
        versionIsLessThan semverLib [Val.str s1, Val.str s2]) ∧
    (s2.data.head? ≠ some 'v' →
      versionIsGreaterThan semverLib [Val.str s1, Val.str ("v" ++ s2)] =
        versionIsGreaterThan semverLib [Val.str s1, Val.str s2] ∧
      versionIsLessThan semverLib [Val.str s1, Val.str ("v" ++ s2)] =
        versionIsLessThan semverLib [Val.str s1, Val.str s2]) ∧
    versionIsGreaterThan semverLib [Val.str "1.25.0", Val.str "1.24.0"] =
      some (Val.bool true) ∧
    versionIsLessThan semverLib [Val.str "1.25.0", Val.str "1.24.0"] =
      some (Val.bool false) ∧
    versionIsGreaterThan semverLib [Val.str "v1.25.0", Val.str "1.24.0"] =
      some (Val.bool true) ∧
    versionIsGreaterThan semverLib [Val.str "1.25.0", Val.str "v1.24.0"] =
      some (Val.bool true) ∧
    versionIsLessThan semverLib [Val.str "v1.25.0", Val.str "1.24.0"] =
      some (Val.bool false) ∧
    versionIsLessThan semverLib [Val.str "1.25.0", Val.str "v1.24.0"] =
      some (Val.bool false) := by
  have hgt : ∀ (t1 t2 : String), parseSemVer t1.data = some a → parseSemVer t2.data = some b →
      versionIsGreaterThan semverLib [Val.str t1, Val.str t2] =
        some (Val.bool (decide (a.precedence b = Ordering.gt))) := by
    intro t1 t2 ht1 ht2
    simp only [versionIsGreaterThan, compareVersions_semver t1 t2 a b _ ht1 ht2, if_true,
      threeWay_pos]
  have hlt : ∀ (t1 t2 : String), parseSemVer t1.data = some a → parseSemVer t2.data = some b →
      versionIsLessThan semverLib [Val.str t1, Val.str t2] =
        some (Val.bool (decide (a.precedence b = Ordering.lt))) := by
    intro t1 t2 ht1 ht2
    have hop : ¬ ("versionIsLessThan" = "versionIsGreaterThan") := by decide
    simp only [versionIsLessThan, compareVersions_semver t1 t2 a b _ ht1 ht2, if_neg hop,
      threeWay_neg]
  have hv : ∀ (t : String) (c : SemVer), parseSemVer t.data = some c →
      t.data.head? ≠ some 'v' → parseSemVer ("v" ++ t).data = some c := by
    intro t c ht hhead
    have hdata : ("v" ++ t).data = 'v' :: t.data := by
      rw [String.data_append]; rfl
    rw [hdata, parseSemVer_v t.data hhead, ht]
  refine ⟨hgt s1 s2 h1 h2, hlt s1 s2 h1 h2, ?_, ?_, rfl, rfl, rfl, rfl, rfl, rfl⟩
  · intro hhead
    have h1v := hv s1 a h1 hhead
    exact ⟨by rw [hgt _ _ h1v h2, hgt _ _ h1 h2], by rw [hlt _ _ h1v h2, hlt _ _ h1 h2]⟩
  · intro hhead
    have h2v := hv s2 b h2 hhead
    exact ⟨by rw [hgt _ _ h1 h2v, hgt _ _ h1 h2], by rw [hlt _ _ h1 h2v, hlt _ _ h1 h2]⟩

theorem version_comparison_witness :
    parseSemVer "1.25.0-rc.1".data = some (SemVer.mk 1 25 0 [['r', 'c'], ['1']] []) ∧
    parseSemVer "v1.25.0".data = some (SemVer.mk 1 25 0 [] []) ∧
    versionIsGreaterThan semverLib [Val.str "1.25.0-rc.1", Val.str "v1.25.0"] =
      some (Val.bool false) ∧
    versionIsLessThan semverLib [Val.str "1.25.0-rc.1", Val.str "v1.25.0"] =
      some (Val.bool true) :=
  have h := version_comparison "1.25.0-rc.1" "v1.25.0" (SemVer.mk 1 25 0 [['r', 'c'], ['1']] [])
    (SemVer.mk 1 25 0 [] []) rfl rfl
  ⟨rfl, rfl, h.1, h.2.1⟩

/-! ## The verdict of the loop -/

theorem isBool_asBool_iff (v : Val) : (v.isBool && v.asBool) = true ↔ v = Val.bool true := by
  cases v with
  | bool b => cases b <;> simp [Val.isBool, Val.asBool]
  | _ => simp [Val.isBool, Val.asBool]

theorem evalLoop_noProgram {Ast Prg : Type} (env : CelEnv Ast Prg) (doc : Val)
    (i : Nat) (e : String) (rest : List String) (tr : List Call)
    (h : runExpr env doc e = Step.noProgram) :
    evalLoop env doc i (e :: rest) tr =
      (Outcome.panic, tr ++ [Call.compile i e, Call.program i e]) := by
  unfold runExpr at h
  rw [evalLoop]
  cases hc : env.Compile e with
  | error c1 => simp [hc] at h
  | ok ast =>
    cases hp : env.Program ast with
    | error c2 => simp [hp]
    | ok prg =>
      cases hev : env.Eval prg (activation doc) <;> simp [hc, hp, hev] at h

/-- The value the loop returns does not depend on the start position or on the
calls recorded so far: it is the verdict of the list. -/
theorem evalLoop_fst {Ast Prg : Type} (env : CelEnv Ast Prg) (doc : Val)
    (l : List String) :
    ∀ (i : Nat) (tr : List Call), (evalLoop env doc i l tr).1 = loopOutcome env doc l := by
  induction l with
  | nil => intro i tr; rw [evalLoop, loopOutcome]
  | cons e rest ih =>
    intro i tr
    rw [loopOutcome]
    cases h : runExpr env doc e with
    | compileError c => rw [evalLoop_compileError env doc i e rest tr c h]
    | noProgram => rw [evalLoop_noProgram env doc i e rest tr h]
    | evalError c => rw [evalLoop_evalError env doc i e rest tr c h]
    | value v =>
      by_cases hv : v = Val.bool true
      · subst hv
        rw [evalLoop_true env doc i e rest tr h, ih]
        simp [Val.isBool, Val.asBool]
      · rw [evalLoop_not_true env doc i e rest tr v h hv]
        have hb : ¬ ((v.isBool && v.asBool) = true) := fun hb =>
          hv ((isBool_asBool_iff v).mp hb)
        simp [hb]

theorem Evaluate_eq_loopOutcome {Ast Prg : Type} (env : CelEnv Ast Prg)
    (cluster : ManagedCluster) (expressions : List String) :
    Evaluate env cluster expressions =
      loopOutcome env (convertManagedCluster cluster) expressions := by
  unfold Evaluate EvaluateTraced
  exact evalLoop_fst env _ expressions 0 []

theorem loopOutcome_cons_true {Ast Prg : Type} (env : CelEnv Ast Prg) (doc : Val)
    (e : String) (rest : List String)
    (h : runExpr env doc e = Step.value (Val.bool true)) :
    loopOutcome env doc (e :: rest) = loopOutcome env doc rest := by
  rw [loopOutcome, h]
  simp [Val.isBool, Val.asBool]

theorem loopOutcome_cons_not_true {Ast Prg : Type} (env : CelEnv Ast Prg) (doc : Val)
    (e : String) (rest : List String) (v : Val)
    (h : runExpr env doc e = Step.value v) (hv : v ≠ Val.bool true) :
    loopOutcome env doc (e :: rest) = Outcome.ret false none := by
  rw [loopOutcome, h]
  have hb : ¬ ((v.isBool && v.asBool) = true) := fun hb => hv ((isBool_asBool_iff v).mp hb)
  simp [hb]

/-- A verdict with `matched = true` has no error and every expression yielded `true`. -/
theorem loopOutcome_true {Ast Prg : Type} (env : CelEnv Ast Prg) (doc : Val)
    (l : List String) (err : GoError)
    (h : loopOutcome env doc l = Outcome.ret true err) :
    err = none ∧ ∀ e ∈ l, runExpr env doc e = Step.value (Val.bool true) := by
  induction l with
  | nil =>
    rw [loopOutcome] at h
    simp only [Outcome.ret.injEq, true_and] at h
    exact ⟨h.symm, by simp⟩
  | cons x xs ih =>
    rw [loopOutcome] at h
    cases hx : runExpr env doc x with
    | compileError c => rw [hx] at h; simp at h
    | noProgram => rw [hx] at h; simp at h
    | evalError c => rw [hx] at h; simp at h
    | value v =>
      rw [hx] at h
      by_cases hb : (v.isBool && v.asBool) = true
      · simp only [hb, if_true] at h
        have hv := (isBool_asBool_iff v).mp hb
        obtain ⟨herr, hrest⟩ := ih h
        refine ⟨herr, ?_⟩
        intro e he
        rcases List.mem_cons.mp he with rfl | he
        · rw [hx, hv]
        · exact hrest e he
      · simp only [hb, if_false] at h
        simp at h

theorem loopOutcome_all_true {Ast Prg : Type} (env : CelEnv Ast Prg) (doc : Val)
    (l : List String)
    (h : ∀ e ∈ l, runExpr env doc e = Step.value (Val.bool true)) :
    loopOutcome env doc l = Outcome.ret true none := by
  induction l with
  | nil => rw [loopOutcome]
  | cons x xs ih =>
    rw [loopOutcome_cons_true env doc x xs (h x (List.mem_cons_self x xs))]
    exact ih (fun e he => h e (List.mem_cons_of_mem x he))

theorem loopOutcome_append {Ast Prg : Type} (env : CelEnv Ast Prg) (doc : Val)
    (xs ys : List String) :
    loopOutcome env doc (xs ++ ys) =
      if loopOutcome env doc xs = Outcome.ret true none then loopOutcome env doc ys
      else loopOutcome env doc xs := by
  induction xs with
  | nil => simp [loopOutcome]
  | cons x xs ih =>
    rw [List.cons_append, loopOutcome, loopOutcome]
    cases hx : runExpr env doc x with
    | compileError c => simp
    | noProgram => simp
    | evalError c => simp
    | value v =>
      by_cases hb : (v.isBool && v.asBool) = true
      · simp only [hb, if_true]
        exact ih
      · simp only [hb, if_false]
        simp

/-- When every expression executes to a value, the verdict is a no-match as soon
as one of the values is not `true`. -/
theorem loopOutcome_values {Ast Prg : Type} (env : CelEnv Ast Prg) (doc : Val)
    (l : List String)
    (hval : ∀ e ∈ l, ∃ v, runExpr env doc e = Step.value v)
    (hsome : ∃ e ∈ l, runExpr env doc e ≠ Step.value (Val.bool true)) :
    loopOutcome env doc l = Outcome.ret false none := by
  induction l with
  | nil => obtain ⟨e, he, _⟩ := hsome; simp at he
  | cons x xs ih =>
    obtain ⟨v, hv⟩ := hval x (List.mem_cons_self x xs)
    by_cases hvt : v = Val.bool true
    · subst hvt
      rw [loopOutcome_cons_true env doc x xs hv]
      apply ih (fun e he => hval e (List.mem_cons_of_mem x he))
      obtain ⟨e, he, hne⟩ := hsome
      rcases List.mem_cons.mp he with rfl | he
      · exact absurd hv hne
      · exact ⟨e, he, hne⟩
    · exact loopOutcome_cons_not_true env doc x xs v hv hvt

/-! ## The evaluator: invariants -/

/-- C14: if `Evaluate` returns `matched = true`, then the returned error is nil
and every expression of the list compiled, executed without error and yielded
exactly the boolean `true`; `true` never comes with a non-nil error. -/
theorem Evaluate_true_sound {Ast Prg : Type} (env : CelEnv Ast Prg)
    (cluster : ManagedCluster) (expressions : List String) (err : GoError)
    (h : Evaluate env cluster expressions = Outcome.ret true err) :
    err = none ∧
    (∀ e ∈ expressions,
      runExpr env (convertManagedCluster cluster) e = Step.value (Val.bool true)) ∧
    ∀ msg : String, Evaluate env cluster expressions ≠ Outcome.ret true (some msg) := by
  rw [Evaluate_eq_loopOutcome] at h
  obtain ⟨herr, hall⟩ := loopOutcome_true env _ expressions err h
  refine ⟨herr, hall, ?_⟩
  intro msg hmsg
  rw [Evaluate_eq_loopOutcome] at hmsg
  have := (loopOutcome_true env _ expressions (some msg) hmsg).1
  cases this

theorem Evaluate_true_sound_witness :
    Evaluate (demoEnv fakeScoreLister) amazonCluster
        ["managedCluster.metadata.labels[\"cloud\"] == \"Amazon\"", "true"] =
      Outcome.ret true none ∧
    (none : GoError) = none ∧
    (∀ e ∈ ["managedCluster.metadata.labels[\"cloud\"] == \"Amazon\"", "true"],
      runExpr (demoEnv fakeScoreLister) (convertManagedCluster amazonCluster) e =
        Step.value (Val.bool true)) ∧
    ∀ msg : String,
      Evaluate (demoEnv fakeScoreLister) amazonCluster
          ["managedCluster.metadata.labels[\"cloud\"] == \"Amazon\"", "true"] ≠
        Outcome.ret true (some msg) :=
  ⟨rfl,
    Evaluate_true_sound (demoEnv fakeScoreLister) amazonCluster
      ["managedCluster.metadata.labels[\"cloud\"] == \"Amazon\"", "true"] none rfl⟩

/-- C15: for all expression lists `xs` and `ys`, if `Evaluate` on `xs` returns
`(true, nil)` then `Evaluate` on `xs ++ ys` equals `Evaluate` on `ys`; otherwise it
equals `Evaluate` on `xs`. -/
theorem Evaluate_append {Ast Prg : Type} (env : CelEnv Ast Prg)
    (cluster : ManagedCluster) (xs ys : List String) :
    Evaluate env cluster (xs ++ ys) =
      if Evaluate env cluster xs = Outcome.ret true none then Evaluate env cluster ys
      else Evaluate env cluster xs := by
  simp only [Evaluate_eq_loopOutcome]
  exact loopOutcome_append env _ xs ys

/-- C16: when every expression of the list compiles and executes without error
on the cluster document, `Evaluate` returns `(true, nil)` if all of them yield
`true` and `(false, nil)` otherwise, and it returns the same outcome on every
permutation of the list. -/
theorem Evaluate_permutation {Ast Prg : Type} (env : CelEnv Ast Prg)
    (cluster : ManagedCluster) (expressions : List String)
    (hval : ∀ e ∈ expressions,
      ∃ v, runExpr env (convertManagedCluster cluster) e = Step.value v) :
    ((∀ e ∈ expressions,
        runExpr env (convertManagedCluster cluster) e = Step.value (Val.bool true)) →
      Evaluate env cluster expressions = Outcome.ret true none) ∧
    ((∃ e ∈ expressions,
        runExpr env (convertManagedCluster cluster) e ≠ Step.value (Val.bool true)) →
      Evaluate env cluster expressions = Outcome.ret false none) ∧
    ∀ permuted : List String, permuted.Perm expressions →
      Evaluate env cluster permuted = Evaluate env cluster expressions := by
  refine ⟨?_, ?_, ?_⟩
  · intro hall
    rw [Evaluate_eq_loopOutcome]
    exact loopOutcome_all_true env _ expressions hall
  · intro hsome
    rw [Evaluate_eq_loopOutcome]
    exact loopOutcome_values env _ expressions hval hsome
  · intro permuted hperm
    have hval2 : ∀ e ∈ permuted,
        ∃ v, runExpr env (convertManagedCluster cluster) e = Step.value v :=
      fun e he => hval e (hperm.mem_iff.mp he)
    rw [Evaluate_eq_loopOutcome, Evaluate_eq_loopOutcome]
    by_cases hall : ∀ e ∈ expressions,
        runExpr env (convertManagedCluster cluster) e = Step.value (Val.bool true)
    · rw [loopOutcome_all_true env _ expressions hall,
        loopOutcome_all_true env _ permuted (fun e he => hall e (hperm.mem_iff.mp he))]
    · have hsome : ∃ e ∈ expressions,
          runExpr env (convertManagedCluster cluster) e ≠ Step.value (Val.bool true) := by
        by_contra hno
        apply hall
        intro e he
        by_contra hne
        exact hno ⟨e, he, hne⟩
      obtain ⟨e, he, hne⟩ := hsome
      rw [loopOutcome_values env _ expressions hval ⟨e, he, hne⟩,
        loopOutcome_values env _ permuted hval2 ⟨e, hperm.mem_iff.mpr he, hne⟩]

theorem Evaluate_permutation_witness :
    (∀ e ∈ ["true", "[1, 2]", "false"],
      ∃ v, runExpr (demoEnv fakeScoreLister) (convertManagedCluster amazonCluster) e =
        Step.value v) ∧
    Evaluate (demoEnv fakeScoreLister) amazonCluster ["true", "[1, 2]", "false"] =
      Outcome.ret false none ∧
    Evaluate (demoEnv fakeScoreLister) amazonCluster ["false", "true", "[1, 2]"] =
      Evaluate (demoEnv fakeScoreLister) amazonCluster ["true", "[1, 2]", "false"] :=
  have hval : ∀ e ∈ ["true", "[1, 2]", "false"],
      ∃ v, runExpr (demoEnv fakeScoreLister) (convertManagedCluster amazonCluster) e =
        Step.value v := by
    intro e he
    simp only [List.mem_cons, List.mem_singleton, List.not_mem_nil, or_false] at he
    rcases he with rfl | rfl | rfl
    · exact ⟨_, rfl⟩
    · exact ⟨_, rfl⟩
    · exact ⟨_, rfl⟩
  have hne : runExpr (demoEnv fakeScoreLister) (convertManagedCluster amazonCluster) "false" ≠
      Step.value (Val.bool true) := by
    intro h
    have h2 : runExpr (demoEnv fakeScoreLister) (convertManagedCluster amazonCluster) "false" =
        Step.value (Val.bool false) := rfl
    rw [h2] at h
    cases h
  have hperm : ["false", "true", "[1, 2]"].Perm ["true", "[1, 2]", "false"] :=
    @List.perm_append_comm String ["false"] ["true", "[1, 2]"]
  have h := Evaluate_permutation (demoEnv fakeScoreLister) amazonCluster
    ["true", "[1, 2]", "false"] hval
  ⟨hval, h.2.1 ⟨"false", by simp, hne⟩, h.2.2 _ hperm⟩

/-! ## The converted document -/

theorem foldl_append_singleton {α β : Type} (f : α → β) (l : List α) :
    ∀ acc : List β, l.foldl (fun a x => a ++ [f x]) acc = acc ++ l.map f := by
  induction l with
  | nil => intro acc; simp
  | cons x xs ih => intro acc; simp [List.foldl_cons, ih]

theorem convertManagedCluster_eq (cluster : ManagedCluster) :
    convertManagedCluster cluster =
      Val.map
        [ ("metadata", Val.map
            [ ("name", Val.str cluster.Name),
              ("labels", stringMap cluster.Labels),
              ("annotations", stringMap cluster.Annotations) ]),
          ("status", Val.map
            [ ("clusterClaims", Val.list (cluster.Status.ClusterClaims.map fun claim =>
                Val.map [("name", Val.str claim.Name), ("value", Val.str claim.Value)])),
              ("version", Val.map
                [("kubernetes", Val.str cluster.Status.Version.Kubernetes)]) ]) ] := by
  unfold convertManagedCluster
  simp only [foldl_append_singleton, List.nil_append]

theorem stringMap_find (m : Option (List (String × String))) (key : String) :
    (stringMap m).find key = ((m.getD []).lookup key).map Val.str := by
  unfold stringMap Val.find
  simp only
  induction m.getD [] with
  | nil => rfl
  | cons kv rest ih =>
    obtain ⟨k, v⟩ := kv
    simp only [List.map_cons, List.lookup_cons]
    cases hk : key == k with
    | true => simp
    | false => simpa using ih

/-- C13: for every cluster record `convertManagedCluster` returns a document of
the fixed shape: `metadata.name`, `metadata.labels` and `metadata.annotations` are
the record's name, labels and annotations (a key of the document's mapping reads
what it reads in the record), `status.version.kubernetes` is the record's
Kubernetes version, and `status.clusterClaims` is a sequence as long as the
record's claims with the `i`-th entry the `name` and `value` of the `i`-th claim;
nil labels, annotations and claims give empty mappings and an empty sequence,
empty scalars give empty strings, and equal records give equal documents. -/
theorem convertManagedCluster_shape (cluster : ManagedCluster) :
    (convertManagedCluster cluster).path ["metadata", "name"] = some (Val.str cluster.Name) ∧
    (convertManagedCluster cluster).path ["metadata", "labels"] =
      some (stringMap cluster.Labels) ∧
    (convertManagedCluster cluster).path ["metadata", "annotations"] =
      some (stringMap cluster.Annotations) ∧
    (∀ key : String, (stringMap cluster.Labels).find key =
      ((cluster.Labels.getD []).lookup key).map Val.str) ∧
    (∀ key : String, (stringMap cluster.Annotations).find key =
      ((cluster.Annotations.getD []).lookup key).map Val.str) ∧
    (convertManagedCluster cluster).path ["status", "version", "kubernetes"] =
      some (Val.str cluster.Status.Version.Kubernetes) ∧
    (∃ items : List Val,
      (convertManagedCluster cluster).path ["status", "clusterClaims"] =
        some (Val.list items) ∧
      items.length = cluster.Status.ClusterClaims.length ∧
      ∀ (i : Nat) (claim : ManagedClusterClaim),
        cluster.Status.ClusterClaims[i]? = some claim →
        items[i]? =
          some (Val.map [("name", Val.str claim.Name), ("value", Val.str claim.Value)])) ∧
    (∃ (name labels annotations claims kubernetes : Val),
      convertManagedCluster cluster =
        Val.map
          [ ("metadata", Val.map
              [("name", name), ("labels", labels), ("annotations", annotations)]),
            ("status", Val.map
              [ ("clusterClaims", claims),
                ("version", Val.map [("kubernetes", kubernetes)]) ]) ]) ∧
    convertManagedCluster emptyCluster =
      Val.map
        [ ("metadata", Val.map
            [("name", Val.str ""), ("labels", Val.map []), ("annotations", Val.map [])]),
          ("status", Val.map
            [ ("clusterClaims", Val.list []),
              ("version", Val.map [("kubernetes", Val.str "")]) ]) ] ∧
    ∀ other : ManagedCluster, other = cluster →
      convertManagedCluster other = convertManagedCluster cluster := by
  refine ⟨rfl, rfl, rfl, stringMap_find _, stringMap_find _, rfl, ?_, ?_, rfl, ?_⟩
  · refine ⟨cluster.Status.ClusterClaims.map fun claim =>
      Val.map [("name", Val.str claim.Name), ("value", Val.str claim.Value)], ?_, ?_, ?_⟩
    · rw [convertManagedCluster_eq]
      rfl
    · rw [List.length_map]
    · intro i claim hclaim
      rw [List.getElem?_map, hclaim]
      rfl
  · exact ⟨_, _, _, _, _, convertManagedCluster_eq cluster⟩
  · intro other hother
    rw [hother]

/-! ## Quantity comparison -/

theorem pow_ten_pos (n : Nat) : (0 : ℚ) < (10 : ℚ) ^ n := by positivity

theorem Magnitude.cross_lt (a b : Magnitude) :
    a.toRat < b.toRat ↔ a.num * (10 : Int) ^ b.den < b.num * (10 : Int) ^ a.den := by
  unfold Magnitude.toRat
  rw [div_lt_div_iff₀ (pow_ten_pos a.den) (pow_ten_pos b.den)]
  constructor
  · intro h
    exact_mod_cast h
  · intro h
    exact_mod_cast h

theorem Magnitude.cmp_pos (a b : Magnitude) : a.cmp b > 0 ↔ b.toRat < a.toRat := by
  unfold Magnitude.cmp
  rw [threeWay_pos, compare_gt_iff_gt, Magnitude.cross_lt b a]

theorem Magnitude.cmp_neg (a b : Magnitude) : a.cmp b < 0 ↔ a.toRat < b.toRat := by
  unfold Magnitude.cmp
  rw [threeWay_neg, compare_lt_iff_lt, Magnitude.cross_lt a b]

theorem compareQuantities_parsed (s1 s2 : String) (a b : Magnitude) (op : String)
    (h1 : parseQuantityChars s1.data = some a) (h2 : parseQuantityChars s2.data = some b) :
    compareQuantities quantityLib (some (Val.str s1)) (some (Val.str s2)) op =
      if op = "quantityIsGreaterThan" then Val.bool (decide (a.cmp b > 0))
      else Val.bool (decide (a.cmp b < 0)) := by
  simp only [compareQuantities, Val.asString, quantityLib, h1, h2]

/-- C11: for two strings that parse as resource quantities,
`quantityIsGreaterThan` returns `true` exactly when the normalized magnitude of the
first is greater than that of the second, and `quantityIsLessThan` returns `true`
exactly when it is smaller; binary suffixes scale by powers of 1024 and decimal
suffixes by powers of 1000; `quantityIsGreaterThan("2Gi","1Gi")` is `true`,
`quantityIsLessThan("1000Mi","1Gi")` is `true` and
`quantityIsGreaterThan("1000Mi","1Gi")` is `false`. -/
theorem quantity_comparison (s1 s2 : String) (a b : Magnitude)
    (h1 : parseQuantityChars s1.data = some a) (h2 : parseQuantityChars s2.data = some b) :
    (∃ gt lt : Bool,
      quantityIsGreaterThan quantityLib [Val.str s1, Val.str s2] = some (Val.bool gt) ∧
      quantityIsLessThan quantityLib [Val.str s1, Val.str s2] = some (Val.bool lt) ∧
      (gt = true ↔ b.toRat < a.toRat) ∧
      (lt = true ↔ a.toRat < b.toRat)) ∧
    parseQuantityChars "1Ki".data = some (Magnitude.mk 1024 0) ∧
    parseQuantityChars "1Mi".data = some (Magnitude.mk (1024 * 1024) 0) ∧
    parseQuantityChars "1Gi".data = some (Magnitude.mk (1024 * 1024 * 1024) 0) ∧
    parseQuantityChars "1k".data = some (Magnitude.mk 1000 0) ∧
    parseQuantityChars "1M".data = some (Magnitude.mk (1000 * 1000) 0) ∧
    parseQuantityChars "1G".data = some (Magnitude.mk (1000 * 1000 * 1000) 0) ∧
    quantityIsGreaterThan quantityLib [Val.str "2Gi", Val.str "1Gi"] = some (Val.bool true) ∧
    quantityIsLessThan quantityLib [Val.str "1000Mi", Val.str "1Gi"] = some (Val.bool true) ∧
    quantityIsGreaterThan quantityLib [Val.str "1000Mi", Val.str "1Gi"] =
      some (Val.bool false) := by
  refine ⟨⟨decide (a.cmp b > 0), decide (a.cmp b < 0), ?_, ?_, ?_, ?_⟩,
    rfl, rfl, rfl, rfl, rfl, rfl, rfl, rfl, rfl⟩
  · simp only [quantityIsGreaterThan, compareQuantities_parsed s1 s2 a b _ h1 h2, if_true]
  · have hop : ¬ ("quantityIsLessThan" = "quantityIsGreaterThan") := by decide
    simp only [quantityIsLessThan, compareQuantities_parsed s1 s2 a b _ h1 h2, if_neg hop]
  · rw [decide_eq_true_iff]
    exact Magnitude.cmp_pos a b
  · rw [decide_eq_true_iff]
    exact Magnitude.cmp_neg a b

theorem quantity_comparison_witness :
    parseQuantityChars "1.5Gi".data = some (Magnitude.mk 16106127360 1) ∧
    parseQuantityChars "1500Mi".data = some (Magnitude.mk 1572864000 0) ∧
    ∃ gt lt : Bool,
      quantityIsGreaterThan quantityLib [Val.str "1.5Gi", Val.str "1500Mi"] =
        some (Val.bool gt) ∧
      quantityIsLessThan quantityLib [Val.str "1.5Gi", Val.str "1500Mi"] =
        some (Val.bool lt) ∧
      (gt = true ↔ (Magnitude.mk 1572864000 0).toRat < (Magnitude.mk 16106127360 1).toRat) ∧
      (lt = true ↔ (Magnitude.mk 16106127360 1).toRat < (Magnitude.mk 1572864000 0).toRat) :=
  ⟨rfl, rfl,
    (quantity_comparison "1.5Gi" "1500Mi" (Magnitude.mk 16106127360 1)
      (Magnitude.mk 1572864000 0) rfl rfl).1⟩

/-! ## Errors of the comparators -/

/-- Two messages that share the operator name and then differ in a character
are different. -/
theorem tagged_ne (op x y e1 e2 : String) (p tx ty : List Char) (cx cy : Char)
    (hx : x.data = p ++ cx :: tx) (hy : y.data = p ++ cy :: ty) (hne : cx ≠ cy) :
    op ++ x ++ e1 ≠ op ++ y ++ e2 := by
  intro h
  have hd := congrArg String.data h
  simp only [String.data_append, hx, hy, List.append_assoc] at hd
  have h1 := List.append_cancel_left (List.append_cancel_left hd)
  simp only [List.cons_append, List.cons.injEq] at h1
  exact hne h1.1

theorem tagged_ne_bare (op x y e1 : String) (p tx ty : List Char) (cx cy : Char)
    (hx : x.data = p ++ cx :: tx) (hy : y.data = p ++ cy :: ty) (hne : cx ≠ cy) :
    op ++ x ++ e1 ≠ op ++ y := by
  have h := tagged_ne op x y e1 "" p tx ty cx cy hx hy hne
  rwa [String.append_empty] at h

theorem tagged_contains (op mid e pre tag post : String) (h : mid = pre ++ tag ++ post) :
    contains (op ++ mid ++ e) tag := by
  unfold contains
  refine ⟨op.data ++ pre.data, post.data ++ e.data, ?_⟩
  simp [String.data_append, h]

/-- C12: for `compareVersions` and `compareQuantities` and every operator name:
an operand that is not a string gives the error "both arguments must be strings";
a first operand that fails to parse gives the error "invalid first version" /
"invalid first quantity" with the cause, whatever the second operand is; a second
operand that fails gives "comparison failed" / "invalid second quantity"; the
three errors are different texts, and none of the results is a boolean. -/
theorem comparators_report_errors {V Q : Type} (vlib : VersionLib V) (qlib : QuantityLib Q)
    (vop qop : String) :
    (∀ a b : Val, a.asString = none ∨ b.asString = none →
      compareVersions vlib (some a) (some b) vop =
        Val.err (vop ++ ": both arguments must be strings") ∧
      compareQuantities qlib (some a) (some b) qop =
        Val.err (qop ++ ": both arguments must be strings")) ∧
    (∀ s1 s2 e : String, vlib.ParseSemantic s1 = Except.error e →
      compareVersions vlib (some (Val.str s1)) (some (Val.str s2)) vop =
        Val.err (vop ++ ": invalid first version: " ++ e) ∧
      contains (vop ++ ": invalid first version: " ++ e) "invalid first version") ∧
    (∀ s1 s2 e : String, qlib.ParseQuantity s1 = Except.error e →
      compareQuantities qlib (some (Val.str s1)) (some (Val.str s2)) qop =
        Val.err (qop ++ ": invalid first quantity: " ++ e) ∧
      contains (qop ++ ": invalid first quantity: " ++ e) "invalid first quantity") ∧
    (∀ (s1 s2 e : String) (v : V), vlib.ParseSemantic s1 = Except.ok v →
      vlib.Compare v s2 = Except.error e →
      compareVersions vlib (some (Val.str s1)) (some (Val.str s2)) vop =
        Val.err (vop ++ ": comparison failed: " ++ e)) ∧
    (∀ (s1 s2 e : String) (q : Q), qlib.ParseQuantity s1 = Except.ok q →
      qlib.ParseQuantity s2 = Except.error e →
      compareQuantities qlib (some (Val.str s1)) (some (Val.str s2)) qop =
        Val.err (qop ++ ": invalid second quantity: " ++ e)) ∧
    (∀ e1 e2 : String,
      vop ++ ": invalid first version: " ++ e1 ≠ vop ++ ": comparison failed: " ++ e2) ∧
    (∀ e1 : String,
      vop ++ ": invalid first version: " ++ e1 ≠ vop ++ ": both arguments must be strings") ∧
    (∀ e1 e2 : String,
      qop ++ ": invalid first quantity: " ++ e1 ≠ qop ++ ": invalid second quantity: " ++ e2) ∧
    (∀ e1 : String,
      qop ++ ": invalid first quantity: " ++ e1 ≠ qop ++ ": both arguments must be strings") ∧
    ∀ (msg : String) (r : Bool), Val.err msg ≠ Val.bool r := by
  refine ⟨?_, ?_, ?_, ?_, ?_, ?_, ?_, ?_, ?_, ?_⟩
  · intro a b hab
    rcases hab with ha | hb
    · constructor
      · simp only [compareVersions, ha]
      · simp only [compareQuantities, ha]
    · cases ha : a.asString with
      | none =>
        constructor
        · simp only [compareVersions, ha]
        · simp only [compareQuantities, ha]
      | some s =>
        constructor
        · simp only [compareVersions, ha, hb]
        · simp only [compareQuantities, ha, hb]
  · intro s1 s2 e h
    refine ⟨?_, tagged_contains vop _ e ": " "invalid first version" ": " (by decide)⟩
    simp only [compareVersions, Val.asString, h]
  · intro s1 s2 e h
    refine ⟨?_, tagged_contains qop _ e ": " "invalid first quantity" ": " (by decide)⟩
    simp only [compareQuantities, Val.asString, h]
  · intro s1 s2 e v h1 h2
    simp only [compareVersions, Val.asString, h1, h2]
  · intro s1 s2 e q h1 h2
    simp only [compareQuantities, Val.asString, h1, h2]
  · intro e1 e2
    exact tagged_ne vop _ _ e1 e2 [':', ' '] "nvalid first version: ".data
      "omparison failed: ".data 'i' 'c' rfl rfl (by decide)
  · intro e1
    exact tagged_ne_bare vop _ _ e1 [':', ' '] "nvalid first version: ".data
      "oth arguments must be strings".data 'i' 'b' rfl rfl (by decide)
  · intro e1 e2
    exact tagged_ne qop _ _ e1 e2 ": invalid ".data "irst quantity: ".data
      "econd quantity: ".data 'f' 's' rfl rfl (by decide)
  · intro e1
    exact tagged_ne_bare qop _ _ e1 [':', ' '] "nvalid first quantity: ".data
      "oth arguments must be strings".data 'i' 'b' rfl rfl (by decide)
  · intro msg r h
    cases h

theorem comparators_report_errors_witness :
    (Val.int 3).asString = none ∧
    compareVersions semverLib (some (Val.int 3)) (some (Val.str "1.24.0"))
        "versionIsGreaterThan" =
      Val.err ("versionIsGreaterThan" ++ ": both arguments must be strings") ∧
    semverLib.ParseSemantic "1.x" = Except.error "could not parse \"1.x\" as version" ∧
    compareVersions semverLib (some (Val.str "1.x")) (some (Val.str "2.y"))
        "versionIsGreaterThan" =
      Val.err ("versionIsGreaterThan" ++ ": invalid first version: " ++
        "could not parse \"1.x\" as version") ∧
    quantityLib.ParseQuantity "1Gi" = Except.ok (Magnitude.mk (1024 * 1024 * 1024) 0) ∧
    quantityLib.ParseQuantity "1Zi" =
      Except.error "quantities must match the regular expression" ∧
    compareQuantities quantityLib (some (Val.str "1Gi")) (some (Val.str "1Zi"))
        "quantityIsLessThan" =
      Val.err ("quantityIsLessThan" ++ ": invalid second quantity: " ++
        "quantities must match the regular expression") :=
  have h := comparators_report_errors semverLib quantityLib "versionIsGreaterThan"
    "quantityIsLessThan"
  ⟨rfl, (h.1 (Val.int 3) (Val.str "1.24.0") (Or.inl rfl)).1,
    rfl, (h.2.1 "1.x" "2.y" _ rfl).1,
    rfl, rfl, h.2.2.2.2.1 "1Gi" "1Zi" _ _ rfl rfl⟩

end managedcluster
